import Mathlib

/-!
# Verification of the lsquic engine core (src/liblsquic/lsquic_engine.c)

Shallow embedding of the engine core of the lsquic QUIC library.  Connections
are opaque collaborators: their capabilities (tick, next_packet_to_send,
encrypt_packet, is_tickable, next_tick_time, ...) are modelled as scripted
fields of the connection record, and every host / connection callback the
engine invokes is recorded in an event trace.  External collaborators whose
source is not part of the engine file (the min-heap, the advisory tick time
queue, the hash, the parser, the clock and the packets_out callback) are
modelled from the specification as lists and oracles.

Machine integers: lsquic_time_t values are microsecond counts, modelled as
Nat; the out parameter of lsquic_engine_earliest_adv_tick is a C int, whose
truncation is modelled explicitly by toInt32.
-/

namespace LsquicEngine

/-- The six reference-counting membership flags of a connection
(CONN_REF_FLAGS in lsquic_engine.c) plus the transient iterator flags and
connection-owned flags the engine core reads. -/
structure ConnFlags where
  hashed        : Bool
  hasOutgoing   : Bool
  tickable      : Bool
  ticked        : Bool
  closing       : Bool
  attq          : Bool
  coiActive     : Bool
  coiInactive   : Bool
  neverTickable : Bool
  evanescent    : Bool
  deriving DecidableEq, Repr

/-- The six flags admissible in engine_incref_conn / engine_decref_conn
(the assert(flag and CONN_REF_FLAGS) in the C code is captured by this type). -/
inductive ConnFlag where
  | HASHED | HAS_OUTGOING | TICKABLE | TICKED | CLOSING | ATTQ
  deriving DecidableEq, Repr

def getFlag (f : ConnFlags) : ConnFlag → Bool
  | .HASHED       => f.hashed
  | .HAS_OUTGOING => f.hasOutgoing
  | .TICKABLE     => f.tickable
  | .TICKED       => f.ticked
  | .CLOSING      => f.closing
  | .ATTQ         => f.attq

def setFlag (f : ConnFlags) : ConnFlag → ConnFlags
  | .HASHED       => { f with hashed := true }
  | .HAS_OUTGOING => { f with hasOutgoing := true }
  | .TICKABLE     => { f with tickable := true }
  | .TICKED       => { f with ticked := true }
  | .CLOSING      => { f with closing := true }
  | .ATTQ         => { f with attq := true }

def clearFlag (f : ConnFlags) : ConnFlag → ConnFlags
  | .HASHED       => { f with hashed := false }
  | .HAS_OUTGOING => { f with hasOutgoing := false }
  | .TICKABLE     => { f with tickable := false }
  | .TICKED       => { f with ticked := false }
  | .CLOSING      => { f with closing := false }
  | .ATTQ         => { f with attq := false }

/-- 0 != (cn_flags and CONN_REF_FLAGS): at least one of the six tracked
reference bits is set.  The COI iterator bits are deliberately not part of
this mask, exactly as in the C code. -/
def refFlagsAny (f : ConnFlags) : Bool :=
  f.hashed || f.hasOutgoing || f.tickable || f.ticked || f.closing || f.attq

/-- Encryption results of esf_encrypt_packet (enum enc_packout). -/
inductive EncStatus where
  | ok | nomem | badcrypt
  deriving DecidableEq, Repr

/-- An outgoing packet (struct lsquic_packet_out as observed by the engine
core).  encResult scripts the external encryption capability. -/
structure PacketOut where
  pid       : Nat
  encrypted : Bool      -- PO_ENCRYPTED
  noencrypt : Bool      -- PO_NOENCRYPT
  encIpv6   : Bool      -- lsquic_packet_out_ipv6
  encResult : EncStatus
  deriving DecidableEq, Repr

/-- A connection as observed by the engine core (struct lsquic_conn).  The
capability set (ci_tick, ci_is_tickable, ci_next_tick_time, ci_get_stats,
ci_next_packet_to_send) is external to the engine and is scripted by the
corresponding fields. -/
structure Conn where
  cid          : Nat          -- cn_cces[0] connection ID (hash key in CID mode)
  localKey     : Nat          -- local port key (hash key in by-address mode)
  peerKey      : Nat          -- recorded peer address
  peerIpv6     : Bool         -- lsquic_conn_peer_ipv6
  flags        : ConnFlags    -- cn_flags
  lastTicked   : Nat          -- cn_last_ticked
  lastSent     : Nat          -- cn_last_sent
  advTime      : Nat          -- lsquic_conn_adv_time (ATTQ entry time)
  stats        : Option Nat   -- ci_get_stats (none when hook absent)
  tickSend     : Bool         -- ci_tick result has TICK_SEND
  tickClose    : Bool         -- ci_tick result has TICK_CLOSE
  ciIsTickable : Bool         -- ci_is_tickable
  nextTickTime : Nat          -- ci_next_tick_time
  packets      : List PacketOut -- ci_next_packet_to_send script
  peerCtx      : Nat          -- cn_peer_ctx
  deriving DecidableEq, Repr

/-- Observable callback invocations of the engine core. -/
inductive Event where
  | destroy        (cid : Nat) (flags : ConnFlags)   -- ci_destroy
  | packetsOutCall (submitted accepted : Nat)        -- host packets_out callback
  | packetSent     (cid pid : Nat)                   -- ci_packet_sent
  | packetNotSent  (cid pid : Nat)                   -- ci_packet_not_sent
  | pmiRelease     (pid : Nat)                       -- pmi_release
  | pmiReturn      (pid : Nat)                       -- pmi_return
  | tick           (cid : Nat)                       -- ci_tick
  | connPacketIn   (cid pid : Nat)                   -- ci_packet_in
  | statelessReset (cid : Nat)                       -- ci_stateless_reset
  deriving DecidableEq, Repr

/-- The engine state (struct lsquic_engine together with the public part
struct lsquic_engine_public that the engine core reads and writes). -/
structure Engine where
  conns           : List Conn            -- live connection objects
  connsHash       : List (Nat × Nat)     -- conns_hash: (key, cid)
  srstHash        : List (Nat × Nat)     -- enp_srst_hash: (token, cid)
  tickableQ       : List (Nat × Nat)     -- conns_tickable: (key, cid)
  outQ            : List (Nat × Nat)     -- conns_out: (key, cid)
  attq            : List (Nat × Nat)     -- attq: (time, cid)
  canSend         : Bool                 -- ENPUB_CAN_SEND
  proc            : Bool                 -- ENPUB_PROC
  pastDeadline    : Bool                 -- ENG_PAST_DEADLINE
  connsByAddr     : Bool                 -- ENG_CONNS_BY_ADDR
  honorPrst       : Bool                 -- es_honor_prst
  procTimeThresh  : Nat                  -- es_proc_time_thresh
  lastSent        : Nat                  -- engine->last_sent
  deadline        : Nat                  -- engine->deadline
  resumeSendingAt : Nat                  -- engine->resume_sending_at
  batchSize       : Nat                  -- engine->batch_size
  nConns          : Nat                  -- engine->n_conns
  statsConns      : Nat                  -- stats.conns      (LSQUIC_CONN_STATS)
  statsSum        : Nat                  -- conn_stats_sum   (LSQUIC_CONN_STATS)
  deriving DecidableEq, Repr

def MAX_OUT_BATCH_SIZE : Nat := 1024
def MIN_OUT_BATCH_SIZE : Nat := 4
def INITIAL_OUT_BATCH_SIZE : Nat := 32

/-- Find a live connection object by its identity (its CID). -/
def findConn (e : Engine) (cid : Nat) : Option Conn :=
  e.conns.find? (fun c => c.cid == cid)

/-- Replace the stored state of the connection with the given identity. -/
def setConn (e : Engine) (c : Conn) : Engine :=
  { e with conns := e.conns.map (fun x => if x.cid == c.cid then c else x) }

/-- Remove a connection object (deallocation at destruction). -/
def removeConn (e : Engine) (cid : Nat) : Engine :=
  { e with conns := e.conns.filter (fun x => x.cid != cid) }

/-- update_stats_sum: add the connection's statistics into the engine totals
if the ci_get_stats hook is present and yields statistics
(LSQUIC_CONN_STATS build). -/
def update_stats_sum (e : Engine) (c : Conn) : Engine :=
  match c.stats with
  | some s => { e with statsConns := e.statsConns + 1, statsSum := e.statsSum + s }
  | none   => e

/-- destroy_conn: aggregate statistics, decrement n_conns, poison the
connection with LSCONN_NEVER_TICKABLE and invoke its ci_destroy capability. -/
def destroy_conn (e : Engine) (c : Conn) : Engine × List Event :=
  let e := update_stats_sum e c
  let e := { e with nConns := e.nConns - 1 }
  let c := { c with flags := { c.flags with neverTickable := true } }
  (removeConn e c.cid, [Event.destroy c.cid c.flags])

/-- engine_incref_conn: set the given membership bit (asserted clear). -/
def engine_incref_conn (c : Conn) (flag : ConnFlag) : Conn :=
  { c with flags := setFlag c.flags flag }

/-- engine_decref_conn: clear the given membership bit; when none of the six
tracked bits remains, the connection is destroyed and NULL is returned
(modelled by the returned Option). -/
def engine_decref_conn (e : Engine) (cid : Nat) (flag : ConnFlag) :
    Engine × Option Nat × List Event :=
  match findConn e cid with
  | none => (e, none, [])       -- dangling pointer; cannot happen in the C code
  | some c =>
    let c := { c with flags := clearFlag c.flags flag }
    if refFlagsAny c.flags then
      (setConn e c, some cid, [])
    else
      let (e, evs) := destroy_conn e c
      (e, none, evs)

/-! ## External collaborators modelled from the spec -/

/-- Modelled from the spec: lsquic_min_heap (lsquic_min_heap.c is not part of
the analysed source).  A binary min-heap of (key, connection) pairs; ties may
be resolved in any consistent order.  Modelled as a list whose insert appends
and whose pop removes the first element carrying a minimal key. -/
def mhInsert (h : List (Nat × Nat)) (key cid : Nat) : List (Nat × Nat) :=
  h ++ [(key, cid)]

/-- Modelled from the spec: pop of lsquic_min_heap; removes and returns the
first element with the minimal key, or none when the heap is empty. -/
def mhPop : List (Nat × Nat) → Option ((Nat × Nat) × List (Nat × Nat))
  | [] => none
  | x :: rest =>
    match mhPop rest with
    | none => some (x, [])
    | some (y, rest') =>
      if x.1 ≤ y.1 then some (x, rest) else some (y, x :: rest')

/-- Modelled from the spec: attq_add (lsquic_attq.c is not part of the
analysed source).  Adds an entry keyed by absolute wakeup time; an existing
entry for the same connection is replaced.  Allocation never fails in the
model, matching the 0 return of attq_add. -/
def attqAdd (q : List (Nat × Nat)) (cid t : Nat) : List (Nat × Nat) :=
  q.filter (fun p => p.2 != cid) ++ [(t, cid)]

/-- Modelled from the spec: attq_remove. -/
def attqRemove (q : List (Nat × Nat)) (cid : Nat) : List (Nat × Nat) :=
  q.filter (fun p => p.2 != cid)

/-- Modelled from the spec: attq_next_time, the minimal wakeup time in the
queue. -/
def attqNextTime (q : List (Nat × Nat)) : Option Nat :=
  match q with
  | [] => none
  | x :: rest =>
    match attqNextTime rest with
    | none => some x.1
    | some m => some (min x.1 m)

/-- Modelled from the spec: attq_pop, which removes and returns an entry
whose time is not later than now, in time order. -/
def attqPop (q : List (Nat × Nat)) (now : Nat) :
    Option (Nat × List (Nat × Nat)) :=
  match mhPop q with
  | none => none
  | some ((t, cid), rest) => if t ≤ now then some (cid, rest) else none

/-! ## Ingress dispatcher -/

/-- An inbound packet descriptor after a successful parse_packet_in_begin
(struct lsquic_packet_in as observed by the engine core).  The byte-level
checks of find_conn_by_srst (minimal stateless-reset size and the 0x40 bit
pattern) are summarised by the srstShaped field of the parsed datagram. -/
structure PacketIn where
  pid         : Nat
  isGquicPrst : Bool        -- lsquic_packet_in_is_gquic_prst
  isGquic     : Bool        -- PI_GQUIC
  cid         : Option Nat  -- PI_CONN_ID and pi_conn_id
  srstShaped  : Bool        -- size and bit-pattern checks of find_conn_by_srst
  srstToken   : Nat         -- trailing IQUIC_SRESET_TOKEN_SZ bytes
  deriving DecidableEq, Repr

/-- Look up a hash entry by key in an association list (lsquic_hash_find). -/
def hashFind (h : List (Nat × Nat)) (key : Nat) : Option Nat :=
  (h.find? (fun p => p.1 == key)).map Prod.snd

/-- find_conn: locate the owning connection of a parsed packet, by local
address in by-address mode and by connection ID otherwise; in by-address
mode a CID carried by the packet must match the connection's CID. -/
def find_conn (e : Engine) (pkt : PacketIn) (saLocalKey : Nat) : Option Nat :=
  if e.connsByAddr then
    match hashFind e.connsHash saLocalKey with
    | none => none
    | some cid =>
      match pkt.cid with
      | some pcid => if pcid != cid then none else some cid
      | none => some cid
  else
    match pkt.cid with
    | some pcid => hashFind e.connsHash pcid
    | none => none

/-- find_conn_by_srst: look up the trailing stateless-reset token when the
datagram has the IETF shape and the minimum size. -/
def find_conn_by_srst (e : Engine) (pkt : PacketIn) : Option Nat :=
  if pkt.srstShaped then hashFind e.srstHash pkt.srstToken else none

/-- process_packet_in: returns 0 when the packet was handed to a live
connection, 1 otherwise, together with the updated engine and the trace of
connection callbacks invoked. -/
def process_packet_in (e : Engine) (pkt : PacketIn)
    (saLocalKey saPeerKey peerCtx : Nat) : Engine × Nat × List Event :=
  if pkt.isGquicPrst && !e.honorPrst then
    (e, 1, [])
  else
    match find_conn e pkt saLocalKey with
    | none =>
      if e.honorPrst && !pkt.isGquic then
        match find_conn_by_srst e pkt with
        | some cid =>
          match findConn e cid with
          | some c =>
            let e :=
              if !c.flags.tickable && c.ciIsTickable then
                let e := { e with tickableQ := mhInsert e.tickableQ c.lastTicked c.cid }
                setConn e (engine_incref_conn c .TICKABLE)
              else e
            (e, 1, [Event.statelessReset cid])
          | none => (e, 1, [])
        | none => (e, 1, [])
      else (e, 1, [])
    | some cid =>
      match findConn e cid with
      | none => (e, 1, [])    -- hash entry without object; cannot happen
      | some c =>
        let (e, c) :=
          if !c.flags.tickable then
            let e := { e with tickableQ := mhInsert e.tickableQ c.lastTicked c.cid }
            let c := engine_incref_conn c .TICKABLE
            (setConn e c, c)
          else (e, c)
        -- lsquic_conn_record_sockaddr and cn_peer_ctx assignment
        let c := { c with localKey := saLocalKey, peerKey := saPeerKey,
                          peerCtx := peerCtx }
        let e := setConn e c
        (e, 0, [Event.connPacketIn cid pkt.pid])

/-- lsquic_engine_add_conn_to_tickable: no-op while inside a processing call
(ENPUB_PROC) or when the connection is already TICKABLE or poisoned
NEVER_TICKABLE. -/
def lsquic_engine_add_conn_to_tickable (e : Engine) (cid : Nat) : Engine :=
  match findConn e cid with
  | none => e
  | some c =>
    if !e.proc && !c.flags.tickable && !c.flags.neverTickable then
      let e := { e with tickableQ := mhInsert e.tickableQ c.lastTicked c.cid }
      setConn e (engine_incref_conn c .TICKABLE)
    else e

/-- lsquic_engine_add_conn_to_attq: a TICKABLE connection is never added (it
is about to be ticked); a connection already in the queue is re-keyed when
its advisory time changed; otherwise the connection is added and acquires
the ATTQ reference. -/
def lsquic_engine_add_conn_to_attq (e : Engine) (cid : Nat) (tickTime : Nat) :
    Engine :=
  match findConn e cid with
  | none => e
  | some c =>
    if c.flags.tickable then
      e
    else if c.flags.attq then
      if c.advTime != tickTime then
        let e := { e with attq := attqAdd (attqRemove e.attq cid) cid tickTime }
        setConn e { c with advTime := tickTime }
      else e
    else
      let e := { e with attq := attqAdd e.attq cid tickTime }
      setConn e (engine_incref_conn { c with advTime := tickTime } .ATTQ)

/-- conn_iter_next_tickable: pop the next connection from the Tickable Queue,
drop its TICKABLE reference, and remove it from the Advisory Tick Time queue
if it is there.  Returns none when the queue is empty or when the popped
connection is destroyed by the dereference. -/
def conn_iter_next_tickable (e : Engine) : Engine × Option Nat × List Event :=
  match mhPop e.tickableQ with
  | none => (e, none, [])
  | some ((_, cid), rest) =>
    let e := { e with tickableQ := rest }
    let (e, r, evs) := engine_decref_conn e cid .TICKABLE
    match r with
    | none => (e, none, evs)
    | some cid =>
      match findConn e cid with
      | none => (e, none, evs)
      | some c =>
        if c.flags.attq then
          let e := { e with attq := attqRemove e.attq cid }
          let (e, r, evs2) := engine_decref_conn e cid .ATTQ
          (e, r, evs ++ evs2)
        else
          (e, some cid, evs)

/-! ## Egress pipeline -/

/-- grow_batch_size: double the batch, capped at MAX_OUT_BATCH_SIZE
(engine->batch_size <<= engine->batch_size < MAX_OUT_BATCH_SIZE). -/
def grow_batch_size (e : Engine) : Engine :=
  { e with batchSize :=
      e.batchSize <<< (if e.batchSize < MAX_OUT_BATCH_SIZE then 1 else 0) }

/-- shrink_batch_size: halve the batch, floored at MIN_OUT_BATCH_SIZE
(engine->batch_size >>= engine->batch_size > MIN_OUT_BATCH_SIZE). -/
def shrink_batch_size (e : Engine) : Engine :=
  { e with batchSize :=
      e.batchSize >>> (if MIN_OUT_BATCH_SIZE < e.batchSize then 1 else 0) }

/-- remove_conn_from_hash: erase all CCEs of the connection from conns_hash
and drop the HASHED reference. -/
def remove_conn_from_hash (e : Engine) (cid : Nat) : Engine × List Event :=
  let e := { e with connsHash := e.connsHash.filter (fun p => p.2 != cid) }
  let (e, _, evs) := engine_decref_conn e cid .HASHED
  (e, evs)

/-- The iterator over the Outgoing Queue (struct conns_out_iter): the heap
itself lives in the engine (outQ); the iterator adds a FIFO active list, a
FIFO inactive list and the round-robin cursor coi_next. -/
structure CoiIter where
  activeList   : List Nat
  inactiveList : List Nat
  next         : Option Nat
  deriving DecidableEq, Repr

def coiInitIter : CoiIter := { activeList := [], inactiveList := [], next := none }

/-- The element following the first occurrence of x (TAILQ_NEXT). -/
def listSuccessor : List Nat → Nat → Option Nat
  | [], _ => none
  | [_], _ => none
  | a :: b :: rest, x => if a == x then some b else listSuccessor (b :: rest) x

/-- coi_next: while the heap is non-empty pop one connection per turn onto
the active list; once drained, round-robin over the active list. -/
def coi_next (e : Engine) (it : CoiIter) : Engine × CoiIter × Option Nat :=
  match mhPop e.outQ with
  | some ((_, cid), rest) =>
    let e := { e with outQ := rest }
    let it := { it with activeList := it.activeList ++ [cid] }
    let e :=
      match findConn e cid with
      | some c => setConn e { c with flags := { c.flags with coiActive := true } }
      | none => e
    (e, it, some cid)
  | none =>
    match it.activeList with
    | [] => (e, it, none)
    | first :: _ =>
      let cid := it.next.getD first
      let it := { it with next := listSuccessor it.activeList cid }
      (e, it, some cid)

/-- coi_deactivate: move the connection from the active to the inactive list
(evanescent connections are left alone). -/
def coi_deactivate (e : Engine) (it : CoiIter) (cid : Nat) : Engine × CoiIter :=
  match findConn e cid with
  | none => (e, it)
  | some c =>
    if !c.flags.evanescent then
      let it := { it with activeList := it.activeList.erase cid,
                          inactiveList := it.inactiveList ++ [cid] }
      (setConn e { c with flags :=
          { c.flags with coiActive := false, coiInactive := true } }, it)
    else (e, it)

/-- coi_reactivate: move the connection back from the inactive to the active
list (asserted COI_INACTIVE in the C code). -/
def coi_reactivate (e : Engine) (it : CoiIter) (cid : Nat) : Engine × CoiIter :=
  match findConn e cid with
  | none => (e, it)
  | some c =>
    if c.flags.coiInactive then
      let it := { it with inactiveList := it.inactiveList.erase cid,
                          activeList := it.activeList ++ [cid] }
      (setConn e { c with flags :=
          { c.flags with coiInactive := false, coiActive := true } }, it)
    else (e, it)

def coiReheapActive (e : Engine) : List Nat → Engine
  | [] => e
  | cid :: rest =>
    let e :=
      match findConn e cid with
      | some c =>
        let e := setConn e { c with flags := { c.flags with coiActive := false } }
        { e with outQ := mhInsert e.outQ c.lastSent cid }
      | none => e
    coiReheapActive e rest

def coiReheapInactive (e : Engine) : List Nat → Engine × List Event
  | [] => (e, [])
  | cid :: rest =>
    let e :=
      match findConn e cid with
      | some c => setConn e { c with flags := { c.flags with coiInactive := false } }
      | none => e
    let (e, _, evs) := engine_decref_conn e cid .HAS_OUTGOING
    let (e, evs') := coiReheapInactive e rest
    (e, evs ++ evs')

/-- coi_reheap: re-insert every active connection into the Outgoing Queue
with its updated last_sent key; connections left on the inactive list had
nothing to send and lose their HAS_OUTGOING reference. -/
def coi_reheap (e : Engine) (it : CoiIter) : Engine × List Event :=
  let e := coiReheapActive e it.activeList
  coiReheapInactive e it.inactiveList

/-- The sent loop of send_batch: for each accepted packet, in increasing
batch order, invoke ci_packet_sent, record cn_last_sent := now + i, and
release the encrypted buffer to the PMI. -/
def sentLoop (e : Engine) (now : Nat) :
    List (Nat × (Nat × PacketOut)) → Engine × List Event
  | [] => (e, [])
  | (i, (cid, pkt)) :: rest =>
    let e :=
      match findConn e cid with
      | some c => setConn e { c with lastSent := now + i }
      | none => e
    let evs := Event.packetSent cid pkt.pid ::
               (if pkt.encrypted then [Event.pmiRelease pkt.pid] else [])
    let (e, evs') := sentLoop e now rest
    (e, evs ++ evs')

/-- The not-sent loop of send_batch: the rejected tail is walked in reverse
batch order, each packet returned via ci_packet_not_sent, and its connection
reactivated in the iterator unless already active or evanescent. -/
def notSentLoop (e : Engine) (it : CoiIter) :
    List (Nat × PacketOut) → Engine × CoiIter × List Event
  | [] => (e, it, [])
  | (cid, pkt) :: rest =>
    let (e, it) :=
      match findConn e cid with
      | some c =>
        if !(c.flags.coiActive || c.flags.evanescent) then
          coi_reactivate e it cid
        else (e, it)
      | none => (e, it)
    let (e, it, evs') := notSentLoop e it rest
    (e, it, Event.packetNotSent cid pkt.pid :: evs')

/-- send_batch: flush one batch through the host's packets_out callback.
ret is the value returned by the callback: the count of packets accepted, or
negative on error (treated as zero accepted).  A short or failed write
disables sending and schedules the one-second resume failsafe. -/
def send_batch (e : Engine) (it : CoiIter) (batch : List (Nat × PacketOut))
    (ret : Int) (now : Nat) : Engine × CoiIter × Nat × List Event :=
  let n := batch.length
  let e :=
    if ret < (n : Int) then
      { e with canSend := false, resumeSendingAt := now + 1000000 }
    else e
  let nSent : Nat := if ret < 0 then 0 else ret.toNat
  let e := if 0 < nSent then { e with lastSent := now + nSent } else e
  let (e, sentEvs) := sentLoop e now (batch.take nSent).enum
  let (e, it, nsEvs) := notSentLoop e it (batch.drop nSent).reverse
  (e, it, nSent, Event.packetsOutCall n nSent :: (sentEvs ++ nsEvs))

/-- The external world of one egress drain: the successive return values of
the packets_out callback, the successive readings of the monotonic clock
inside send_batch, and the successive outcomes of the now-past-deadline
comparison made by check_deadline. -/
structure Oracle where
  poRet : List Int
  sbNow : List Nat
  dl    : List Bool
  deriving DecidableEq, Repr

def Oracle.nextRet (o : Oracle) (n : Nat) : Int × Oracle :=
  match o.poRet with
  | [] => ((n : Int), o)
  | r :: rest => (r, { o with poRet := rest })

def Oracle.nextNow (o : Oracle) : Nat × Oracle :=
  match o.sbNow with
  | [] => (0, o)
  | t :: rest => (t, { o with sbNow := rest })

def Oracle.nextDl (o : Oracle) : Bool × Oracle :=
  match o.dl with
  | [] => (false, o)
  | b :: rest => (b, { o with dl := rest })

/-- check_deadline: mark the engine PAST_DEADLINE when a processing time
threshold is configured and the clock has moved past the deadline. -/
def check_deadline (e : Engine) (o : Oracle) : Engine × Bool × Oracle :=
  let (past, o) := o.nextDl
  if e.procTimeThresh != 0 && past then
    ({ e with pastDeadline := true }, true, o)
  else (e, false, o)

/-- send_batch with its two external readings taken from the oracle. -/
def send_batch_orc (e : Engine) (it : CoiIter) (batch : List (Nat × PacketOut))
    (o : Oracle) : Engine × CoiIter × Nat × Oracle × List Event :=
  let (now, o) := o.nextNow
  let (ret, o) := o.nextRet batch.length
  let (e, it, w, evs) := send_batch e it batch ret now
  (e, it, w, o, evs)

/-- The mutable locals of send_packets_out, bundled. -/
structure DrainSt where
  e            : Engine
  it           : CoiIter
  batch        : List (Nat × PacketOut)
  nBatchesSent : Nat
  nSentTotal   : Nat
  shrink       : Bool
  dlExceeded   : Bool
  ticked       : List Nat
  closed       : List Nat
  evs          : List Event
  orc          : Oracle
  deriving DecidableEq, Repr

/-- The tail of send_packets_out (label end_for onwards): flush the partial
final batch if any, apply the batch-size feedback, and re-heap the iterator. -/
def drainFinish (st : DrainSt) : DrainSt :=
  let st :=
    if 0 < st.batch.length then
      let (e, it, w, o, evs2) := send_batch_orc st.e st.it st.batch st.orc
      let shrink := w < st.batch.length
      let (e, dlEx, o) := check_deadline e o
      { st with e := e, it := it, orc := o, batch := [],
                nBatchesSent := st.nBatchesSent + 1,
                nSentTotal := st.nSentTotal + w,
                shrink, dlExceeded := dlEx,
                evs := st.evs ++ evs2 }
    else st
  let e :=
    if st.shrink then shrink_batch_size st.e
    else if 1 < st.nBatchesSent && !st.dlExceeded then grow_batch_size st.e
    else st.e
  let (e, evs3) := coi_reheap e st.it
  { st with e := e, it := coiInitIter, evs := st.evs ++ evs3 }

/-- Append one packet to the out-batch and flush when the batch is full
(the tail of the loop body of send_packets_out); recur continues the
collection loop with the remaining fuel. -/
def drainStepGo (recur : DrainSt → DrainSt) (st : DrainSt) (cid : Nat)
    (pkt : PacketOut) : DrainSt :=
  let batch := st.batch ++ [(cid, pkt)]
  if batch.length == st.e.batchSize then
    let (e, it, w, o, evs2) := send_batch_orc st.e st.it batch st.orc
    let st := { st with e := e, it := it, orc := o, batch := [],
                        nBatchesSent := st.nBatchesSent + 1,
                        nSentTotal := st.nSentTotal + w,
                        evs := st.evs ++ evs2 }
    if w < st.e.batchSize then
      drainFinish { st with shrink := true }
    else
      let (e, dlEx, o) := check_deadline st.e st.orc
      let st := { st with e := e, orc := o }
      if dlEx then
        drainFinish { st with dlExceeded := true }
      else
        recur { st with e := grow_batch_size st.e }
  else
    recur { st with batch }

/-- One full collection loop of send_packets_out, driven by fuel (the C loop
terminates because every turn either consumes a packet or shrinks the
iterator; a fuel of packets plus connections is always sufficient). -/
def drainLoop (fuel : Nat) (st : DrainSt) : DrainSt :=
  match fuel with
  | 0 => st
  | fuel + 1 =>
    match coi_next st.e st.it with
    | (e, it, none) => drainFinish { st with e := e, it := it }
    | (e, it, some cid) =>
      match findConn e cid with
      | none => drainLoop fuel { st with e := e, it := it }
      | some c =>
        match c.packets with
        | [] =>
          -- ci_next_packet_to_send returned NULL: deactivate
          let (e, it) := coi_deactivate e it cid
          drainLoop fuel { st with e := e, it := it }
        | pkt :: restPkts =>
          let e := setConn e { c with packets := restPkts }
          -- peer address change: return the encryption buffer to the PMI
          let (pkt, evs1) :=
            if pkt.encrypted && (pkt.encIpv6 != c.peerIpv6) then
              ({ pkt with encrypted := false }, [Event.pmiReturn pkt.pid])
            else (pkt, [])
          if !(pkt.encrypted || pkt.noencrypt) then
            match pkt.encResult with
            | .nomem =>
              -- send what we have and wait for a more opportune moment
              drainFinish
                { st with e := e, it := it,
                          evs := st.evs ++ evs1 ++ [Event.packetNotSent cid pkt.pid] }
            | .badcrypt =>
              let evs2 := evs1 ++ [Event.packetNotSent cid pkt.pid]
              if !c.flags.evanescent then
                let (e, st', evs3) :=
                  if !c.flags.closing then
                    let closed := st.closed ++ [cid]
                    let e :=
                      match findConn e cid with
                      | some c2 => setConn e (engine_incref_conn c2 .CLOSING)
                      | none => e
                    let (e, evs3) :=
                      if c.flags.hashed then remove_conn_from_hash e cid
                      else (e, [])
                    (e, { st with closed }, evs3)
                  else (e, st, [])
                let (e, it) := coi_deactivate e it cid
                let (e, st', evs4) :=
                  if c.flags.ticked then
                    let ticked := st'.ticked.erase cid
                    let (e, _, evs4) := engine_decref_conn e cid .TICKED
                    (e, { st' with ticked }, evs4)
                  else (e, st', [])
                drainLoop fuel
                  { st' with e := e, it := it,
                             evs := st.evs ++ evs2 ++ evs3 ++ evs4 }
              else
                drainLoop fuel { st with e := e, it := it, evs := st.evs ++ evs2 }
            | .ok =>
              drainStepGo (drainLoop fuel)
                { st with e := e, it := it, evs := st.evs ++ evs1 } cid pkt
          else
            drainStepGo (drainLoop fuel)
              { st with e := e, it := it, evs := st.evs ++ evs1 } cid pkt


/-- send_packets_out: drain the Outgoing Queue through the batcher.  Returns
the engine, the possibly amended transient ticked and closed lists, the
remaining oracle and the callback trace. -/
def send_packets_out (fuel : Nat) (e : Engine) (ticked closed : List Nat)
    (o : Oracle) : Engine × List Nat × List Nat × Oracle × List Event :=
  let st : DrainSt :=
    { e, it := coiInitIter, batch := [], nBatchesSent := 0, nSentTotal := 0,
      shrink := false, dlExceeded := false, ticked, closed, evs := [], orc := o }
  let st := drainLoop fuel st
  (st.e, st.ticked, st.closed, st.orc, st.evs)

/-! ## Processing loop -/

/-- lsquic_engine_has_unsent_packets: the Outgoing Queue is non-empty. -/
def lsquic_engine_has_unsent_packets (e : Engine) : Bool :=
  0 < e.outQ.length

/-- reset_deadline: set the slice deadline and clear ENG_PAST_DEADLINE. -/
def reset_deadline (e : Engine) (now : Nat) : Engine :=
  { e with deadline := now + e.procTimeThresh, pastDeadline := false }

/-- The failsafe at the top of process_connections: if sending is disabled
and now is past resume_sending_at, re-enable sending. -/
def resume_failsafe (e : Engine) (now : Nat) : Engine :=
  if !e.canSend && e.resumeSendingAt < now then { e with canSend := true } else e

/-- The tick drain of process_connections: pop tickable connections, invoke
ci_tick, stamp cn_last_ticked := now + i, and classify the tick result into
the Outgoing Queue, the transient closed list or the transient ticked list. -/
def tickLoop (fuel : Nat) (e : Engine) (now i : Nat)
    (ticked closed : List Nat) (evs : List Event) :
    Engine × Nat × List Nat × List Nat × List Event :=
  match fuel with
  | 0 => (e, i, ticked, closed, evs)
  | fuel + 1 =>
    match conn_iter_next_tickable e with
    | (e, none, evs0) => (e, i, ticked, closed, evs ++ evs0)
    | (e, some cid, evs0) =>
      match findConn e cid with
      | none => (e, i, ticked, closed, evs ++ evs0)
      | some c =>
        let c := { c with lastTicked := now + i }
        let e := setConn e c
        let i := i + 1
        let (e, c) :=
          if c.tickSend && !c.flags.hasOutgoing then
            let e := { e with outQ := mhInsert e.outQ c.lastSent c.cid }
            let c := engine_incref_conn c .HAS_OUTGOING
            (setConn e c, c)
          else (e, c)
        if c.tickClose then
          let closed := closed ++ [cid]
          let c := engine_incref_conn c .CLOSING
          let e := setConn e c
          let (e, evsH) :=
            if c.flags.hashed then remove_conn_from_hash e cid else (e, [])
          tickLoop fuel e now i ticked closed
            (evs ++ evs0 ++ [Event.tick cid] ++ evsH)
        else
          let ticked := ticked ++ [cid]
          let e := setConn e (engine_incref_conn c .TICKED)
          tickLoop fuel e now i ticked closed (evs ++ evs0 ++ [Event.tick cid])

/-- The closed-connections drain at the end of a processing call: drop each
CLOSING reference (typically destroying the connection). -/
def closedDrain (e : Engine) : List Nat → Engine × List Event
  | [] => (e, [])
  | cid :: rest =>
    let (e, _, evs) := engine_decref_conn e cid .CLOSING
    let (e, evs') := closedDrain e rest
    (e, evs ++ evs')

/-- The ticked-connections drain at the end of a processing call: drop the
TICKED reference, then re-insert the connection into the Tickable Queue if
it says it is tickable, otherwise schedule it in the Advisory Tick Time
queue at its next tick time (zero being a programming error). -/
def tickedDrain (e : Engine) : List Nat → Engine × List Event
  | [] => (e, [])
  | cid :: rest =>
    let (e, r, evs) := engine_decref_conn e cid .TICKED
    let e :=
      match r with
      | none => e
      | some cid =>
        match findConn e cid with
        | none => e
        | some c =>
          if !c.flags.tickable && c.ciIsTickable then
            let e := { e with tickableQ := mhInsert e.tickableQ c.lastTicked cid }
            setConn e (engine_incref_conn c .TICKABLE)
          else if !c.flags.attq then
            if c.nextTickTime != 0 then
              let e := { e with attq := attqAdd e.attq cid c.nextTickTime }
              setConn e (engine_incref_conn { c with advTime := c.nextTickTime } .ATTQ)
            else e      -- assert(0) in the C code
          else e
    let (e, evs') := tickedDrain e rest
    (e, evs ++ evs')

/-- process_connections: the body of a processing call, shared by
lsquic_engine_process_conns (with the tickable iterator). -/
def process_connections (fuel : Nat) (e : Engine) (now : Nat) (o : Oracle) :
    Engine × Oracle × List Event :=
  let e := reset_deadline e now
  let e := resume_failsafe e now
  let (e, _, ticked, closed, evs1) := tickLoop fuel e now 0 [] [] []
  let (e, ticked, closed, o, evs2) :=
    if e.canSend && lsquic_engine_has_unsent_packets e then
      send_packets_out fuel e ticked closed o
    else (e, ticked, closed, o, [])
  let (e, evs3) := closedDrain e closed
  let (e, evs4) := tickedDrain e ticked
  (e, o, evs1 ++ evs2 ++ evs3 ++ evs4)

/-- The Advisory Tick Time queue drain at the top of
lsquic_engine_process_conns: pop connections whose wakeup time has passed,
drop their ATTQ reference and insert them into the Tickable Queue if not
already there. -/
def attqDrain (fuel : Nat) (e : Engine) (now : Nat) (evs : List Event) :
    Engine × List Event :=
  match fuel with
  | 0 => (e, evs)
  | fuel + 1 =>
    match attqPop e.attq now with
    | none => (e, evs)
    | some (cid, rest) =>
      let e := { e with attq := rest }
      let (e, r, evs1) := engine_decref_conn e cid .ATTQ
      let e :=
        match r with
        | none => e
        | some cid =>
          match findConn e cid with
          | none => e
          | some c =>
            if !c.flags.tickable then
              let e := { e with tickableQ := mhInsert e.tickableQ c.lastTicked cid }
              setConn e (engine_incref_conn c .TICKABLE)
            else e
      attqDrain fuel e now (evs ++ evs1)

/-- lsquic_engine_process_conns: drain expired timers into the Tickable
Queue, then run process_connections over the tickable iterator.  The PROC
reentrancy flag is held for the duration. -/
def lsquic_engine_process_conns (fuel : Nat) (e : Engine) (now : Nat)
    (o : Oracle) : Engine × Oracle × List Event :=
  let e := { e with proc := true }
  let (e, evs0) := attqDrain fuel e now []
  let (e, o, evs1) := process_connections fuel e now o
  ({ e with proc := false }, o, evs0 ++ evs1)

/-- lsquic_engine_send_unsent_packets: explicit resume; re-enables sending
unconditionally and drains the Outgoing Queue. -/
def lsquic_engine_send_unsent_packets (fuel : Nat) (e : Engine) (now : Nat)
    (o : Oracle) : Engine × Oracle × List Event :=
  let e := reset_deadline e now
  let e := { e with canSend := true }
  let (e, _, closed, o, evs) := send_packets_out fuel e [] [] o
  let (e, evs2) := closedDrain e closed
  (e, o, evs ++ evs2)

/-! ## Ingress entry point -/

/-- One datagram of the inbound buffer together with the behavior of the two
external steps taken on it: the packet-descriptor allocation from the memory
pool and the header parse (parse_packet_in_begin). -/
structure Datagram where
  alloc : Bool
  parse : Option PacketIn
  deriving DecidableEq, Repr

def EINVAL : Nat := 22

/-- The do-while loop of lsquic_engine_packet_in.  Returns the engine, the
return value, the errno value set on parse failure, and the callback trace.
The loop advances while the previous datagram was delivered to a connection
(s == 0) and bytes remain. -/
def packetInLoop (e : Engine) (saLocalKey saPeerKey peerCtx : Nat) :
    List Datagram → Nat → Engine × Int × Option Nat × List Event
  | [], nZeroes => (e, if 0 < nZeroes then 0 else 1, none, [])
  | d :: rest, nZeroes =>
    if !d.alloc then (e, -1, none, [])
    else
      match d.parse with
      | none => (e, -1, some EINVAL, [])
      | some pkt =>
        let (e, s, evs1) := process_packet_in e pkt saLocalKey saPeerKey peerCtx
        let nZeroes := nZeroes + (if s == 0 then 1 else 0)
        if s == 0 && !rest.isEmpty then
          let (e, ret, errno, evs') :=
            packetInLoop e saLocalKey saPeerKey peerCtx rest nZeroes
          (e, ret, errno, evs1 ++ evs')
        else
          (e, if 0 < nZeroes then 0 else (s : Int), none, evs1)

/-- lsquic_engine_packet_in: select the parser variant (in by-address mode
the absence of a mapped connection is an immediate error), then run the
ingress loop over the buffer. -/
def lsquic_engine_packet_in (e : Engine) (dgrams : List Datagram)
    (saLocalKey saPeerKey peerCtx : Nat) :
    Engine × Int × Option Nat × List Event :=
  if e.connsByAddr then
    match hashFind e.connsHash saLocalKey with
    | none => (e, -1, none, [])
    | some _ => packetInLoop e saLocalKey saPeerKey peerCtx dgrams 0
  else
    packetInLoop e saLocalKey saPeerKey peerCtx dgrams 0

/-! ## Advisory next-tick query -/

/-- Two's-complement truncation of the (int) cast applied to the int64_t
difference in lsquic_engine_earliest_adv_tick. -/
def toInt32 (x : Int) : Int := (x + 2 ^ 31) % 2 ^ 32 - 2 ^ 31

/-- lsquic_engine_earliest_adv_tick: some diff when the function returns 1
and writes diff; none when it returns 0 (leaving the out parameter alone). -/
def lsquic_engine_earliest_adv_tick (e : Engine) (now : Nat) : Option Int :=
  if (e.pastDeadline && 0 < e.outQ.length) || 0 < e.tickableQ.length then
    some 0
  else
    match attqNextTime e.attq with
    | some t =>
      let nextTime := if e.canSend then t else min t e.resumeSendingAt
      some (toInt32 ((nextTime : Int) - (now : Int)))
    | none =>
      if e.canSend then none
      else some (toInt32 ((e.resumeSendingAt : Int) - (now : Int)))

/-! ## Concrete fixtures used to instantiate the theorems -/

/-- All-clear flag set. -/
def flags0 : ConnFlags :=
  { hashed := false, hasOutgoing := false, tickable := false, ticked := false,
    closing := false, attq := false, coiActive := false, coiInactive := false,
    neverTickable := false, evanescent := false }

/-- A blank connection. -/
def conn0 : Conn :=
  { cid := 0, localKey := 0, peerKey := 0, peerIpv6 := false, flags := flags0,
    lastTicked := 0, lastSent := 0, advTime := 0, stats := none,
    tickSend := false, tickClose := false, ciIsTickable := false,
    nextTickTime := 0, packets := [], peerCtx := 0 }

/-- A freshly constructed engine (CID mode, defaults of lsquic_engine_new). -/
def engine0 : Engine :=
  { conns := [], connsHash := [], srstHash := [], tickableQ := [], outQ := [],
    attq := [], canSend := true, proc := false, pastDeadline := false,
    connsByAddr := false, honorPrst := false, procTimeThresh := 0,
    lastSent := 0, deadline := 0, resumeSendingAt := 0,
    batchSize := INITIAL_OUT_BATCH_SIZE, nConns := 0, statsConns := 0,
    statsSum := 0 }

/-- A plaintext packet that needs no encryption step. -/
def pkt0 : PacketOut :=
  { pid := 0, encrypted := false, noencrypt := true, encIpv6 := false,
    encResult := .ok }

/-! ## Trace predicates -/

/-- The event is an invocation of the host packets_out callback. -/
def isCall : Event → Bool
  | .packetsOutCall _ _ => true
  | _ => false

/-- The event is a packets_out invocation that accepted fewer packets than
were submitted (a partial or failed batch). -/
def isPartialCall : Event → Bool
  | .packetsOutCall n k => k < n
  | _ => false

def callProj : Event → Option (Nat × Nat)
  | .packetsOutCall n k => some (n, k)
  | _ => none

def noCall (l : List Event) : Bool := l.all (fun ev => !isCall ev)

def noPartialCall (l : List Event) : Bool := l.all (fun ev => !isPartialCall ev)

/-- After any partial packets_out call, no packets_out call follows. -/
def noCallAfterPartial : List Event → Bool
  | [] => true
  | ev :: rest =>
    if isPartialCall ev then noCall rest else noCallAfterPartial rest

def sentProj : Event → Option (Nat × Nat)
  | .packetSent c p => some (c, p)
  | _ => none

def notSentProj : Event → Option (Nat × Nat)
  | .packetNotSent c p => some (c, p)
  | _ => none

def releaseProj : Event → Option Nat
  | .pmiRelease p => some p
  | _ => none

def deliveredProj : Event → Option Nat
  | .connPacketIn c _ => some c
  | _ => none

def destroyProj : Event → Option Nat
  | .destroy c _ => some c
  | _ => none

/-- Fixture for the C1 instantiation: a connection holding only TICKABLE. -/
def c1wConn : Conn :=
  { conn0 with cid := 1, flags := { flags0 with tickable := true }, stats := some 5 }

def c1wEngine : Engine := { engine0 with conns := [c1wConn], nConns := 1 }

/-- Fixture for C2: a hashed connection waiting in the ATTQ. -/
def c2xConn : Conn :=
  { conn0 with cid := 7, flags := { flags0 with hashed := true, attq := true }, advTime := 50 }

def c2xEngine : Engine :=
  { engine0 with conns := [c2xConn], connsHash := [(7, 7)], attq := [(50, 7)], nConns := 1 }

/-- A parseable datagram addressed to connection 7. -/
def c2xPkt : PacketIn :=
  { pid := 1, isGquicPrst := false, isGquic := false, cid := some 7,
    srstShaped := false, srstToken := 0 }

/-- Fixture for the C2 amended-claim instantiation: a TICKABLE connection. -/
def c2wConn : Conn :=
  { conn0 with cid := 9, flags := { flags0 with hashed := true, tickable := true } }

def c2wEngine : Engine :=
  { engine0 with conns := [c2wConn], connsHash := [(9, 9)],
                 tickableQ := [(0, 9)], nConns := 1 }

/-- The non-connection fields of the engine, bundled so that frame lemmas
(functions that only rewrite connection records leave everything else alone)
can be stated as single equations. -/
def scalarView (e : Engine) :=
  (e.connsHash, e.srstHash, e.tickableQ, e.outQ, e.attq, e.canSend, e.proc,
   e.pastDeadline, e.lastSent, e.deadline, e.resumeSendingAt, e.batchSize,
   e.nConns, e.statsConns, e.statsSum)

/-- The batch sizes reachable from INITIAL_OUT_BATCH_SIZE under the AIMD
feedback: the powers of two between MIN_OUT_BATCH_SIZE and
MAX_OUT_BATCH_SIZE. -/
def isPow2Batch (b : Nat) : Bool :=
  b == 4 || b == 8 || b == 16 || b == 32 || b == 64 || b == 128 ||
  b == 256 || b == 512 || b == 1024

/-- Fixture for the C8 instantiation: one timer at 100 microseconds. -/
def c8wEngine : Engine := { engine0 with attq := [(100, 3)] }

/-- Fixture for the C4 counterexample: a connection with exactly one pending
outgoing packet, so that its batch fills the whole (size-1-equivalent)
quota in one iteration. -/
def c4xConn : Conn :=
  { conn0 with cid := 3,
               flags := { flags0 with hashed := true, hasOutgoing := true },
               packets := [pkt0] }

def c4xEngine : Engine :=
  { engine0 with conns := [c4xConn], connsHash := [(3, 3)],
                 outQ := [(0, 3)], nConns := 1 }

/-- Oracle for the C4 counterexample: packets_out accepts the whole batch
(returns 1), the clock reads 100, and the deadline is not exceeded. -/
def c4xOrc : Oracle := { poRet := [1], sbNow := [100], dl := [false] }

/-- Drain state for the C4 instantiation of in-loop growth: batch size 4,
three packets already collected, so the next packet fills the batch; the
callback accepts all 4 and the deadline does not fire. -/
def c4wSt : DrainSt :=
  { e := { engine0 with batchSize := 4 }, it := coiInitIter,
    batch := [(1, pkt0), (1, pkt0), (1, pkt0)], nBatchesSent := 0,
    nSentTotal := 0, shrink := false, dlExceeded := false, ticked := [],
    closed := [], evs := [],
    orc := { poRet := [4], sbNow := [50], dl := [false] } }

/-- Drain state for the C4 instantiation of the lone fully-accepted final
flush: no batch was sent yet and one packet is pending. -/
def c4wFin : DrainSt :=
  { e := { engine0 with batchSize := 32 }, it := coiInitIter,
    batch := [(1, pkt0)], nBatchesSent := 0, nSentTotal := 0, shrink := false,
    dlExceeded := false, ticked := [], closed := [], evs := [],
    orc := { poRet := [1], sbNow := [50], dl := [false] } }

/-- Fixture for the C9 counterexample: the tickable heap and the ATTQ are
both quiescent, but one connection has a pending outgoing packet. -/
def c9xConn : Conn :=
  { conn0 with cid := 5,
               flags := { flags0 with hashed := true, hasOutgoing := true },
               packets := [pkt0] }

def c9xEngine : Engine :=
  { engine0 with conns := [c9xConn], connsHash := [(5, 5)],
                 outQ := [(0, 5)], nConns := 1 }

def c9xOrc : Oracle := { poRet := [1], sbNow := [100], dl := [false] }

/-- Fixtures for the ingress entry point: an engine in CID mode owning one
hashed connection, a datagram addressed to it, one addressed to an unknown
CID, and one whose header does not parse. -/
def c6xConn : Conn :=
  { conn0 with cid := 7, flags := { flags0 with hashed := true } }

def c6xEngine : Engine :=
  { engine0 with conns := [c6xConn], connsHash := [(7, 7)], nConns := 1 }

def dGood : Datagram :=
  { alloc := true,
    parse := some { pid := 1, isGquicPrst := false, isGquic := false,
                    cid := some 7, srstShaped := false, srstToken := 0 } }

def dUnknown : Datagram :=
  { alloc := true,
    parse := some { pid := 2, isGquicPrst := false, isGquic := false,
                    cid := some 99, srstShaped := false, srstToken := 0 } }

def dBad : Datagram := { alloc := true, parse := none }

/-- A datagram for which the packet-descriptor allocation fails. -/
def dNoAlloc : Datagram := { alloc := false, parse := none }

/-! # Theorems -/

/-! ## Helper lemmas -/

theorem findConn_cid (e : Engine) (cid : Nat) (c : Conn)
    (h : findConn e cid = some c) : c.cid = cid := by
  have := List.find?_some h
  simpa using this

theorem findConn_removeConn (e : Engine) (cid : Nat) :
    findConn (removeConn e cid) cid = none := by
  simp only [findConn, removeConn, List.find?_eq_none, List.mem_filter]
  intro c hc
  simpa using hc.2

theorem find?_map_replace (l : List Conn) (cid : Nat) (c c2 : Conn)
    (h : l.find? (fun x => x.cid == cid) = some c) (h2 : c2.cid = cid) :
    (l.map (fun x => if x.cid == c2.cid then c2 else x)).find?
      (fun x => x.cid == cid) = some c2 := by
  induction l with
  | nil => simp at h
  | cons a l ih =>
    by_cases ha : a.cid = cid
    · simp [List.find?, ha, h2]
    · have ha' : (a.cid == cid) = false := by simp [ha]
      rw [List.find?_cons_of_neg _ (by simp [ha])] at h
      simp only [List.map_cons]
      rw [List.find?_cons_of_neg _ (by simp [h2, ha]), ih h]

theorem findConn_setConn_self (e : Engine) (cid : Nat) (c c2 : Conn)
    (h : findConn e cid = some c) (h2 : c2.cid = cid) :
    findConn (setConn e c2) cid = some c2 := by
  simpa [findConn, setConn] using find?_map_replace e.conns cid c c2 h h2

theorem engine_decref_conn_alive (e : Engine) (cid : Nat) (c : Conn)
    (flag : ConnFlag) (h : findConn e cid = some c)
    (halive : refFlagsAny (clearFlag c.flags flag) = true) :
    engine_decref_conn e cid flag =
      (setConn e { c with flags := clearFlag c.flags flag }, some cid, []) := by
  simp [engine_decref_conn, h, halive]

theorem engine_decref_conn_dead (e : Engine) (cid : Nat) (c : Conn)
    (flag : ConnFlag) (h : findConn e cid = some c)
    (hdead : refFlagsAny (clearFlag c.flags flag) = false) :
    engine_decref_conn e cid flag =
      (removeConn (update_stats_sum
          { e with nConns := e.nConns - 1 }
          { c with flags := clearFlag c.flags flag }) cid,
       none,
       [Event.destroy cid
          { clearFlag c.flags flag with neverTickable := true }]) := by
  have hcid : c.cid = cid := findConn_cid e cid c h
  simp only [engine_decref_conn, h, hdead, destroy_conn, Bool.false_eq_true,
    if_false]
  cases hs : c.stats <;> simp [update_stats_sum, hs, removeConn, hcid]

/-! ## C1: destruction exactly at the clearing of the last reference bit -/

/-- C1: For every connection and every decref of a membership bit, the
connection is destroyed exactly when the decref clears the last of the six
tracked reference bits (HASHED, HAS_OUTGOING, TICKABLE, TICKED, CLOSING,
ATTQ): at that transition, and only then, statistics are aggregated, the
NEVER_TICKABLE flag is set on the connection, and its destroy() capability
is invoked exactly once; while any of the six bits is set, the connection is
not destroyed. -/
theorem decref_destroys_iff_last_ref (e : Engine) (cid : Nat) (c : Conn)
    (flag : ConnFlag) (hfind : findConn e cid = some c)
    (hset : getFlag c.flags flag = true) :
    (refFlagsAny (clearFlag c.flags flag) = true →
      (engine_decref_conn e cid flag).2.1 = some cid ∧
      (engine_decref_conn e cid flag).2.2 = []) ∧
    (refFlagsAny (clearFlag c.flags flag) = false →
      (engine_decref_conn e cid flag).2.1 = none ∧
      (engine_decref_conn e cid flag).2.2 =
        [Event.destroy cid
          { clearFlag c.flags flag with neverTickable := true }] ∧
      ({ clearFlag c.flags flag with neverTickable := true } :
          ConnFlags).neverTickable = true ∧
      List.count
        (Event.destroy cid
          { clearFlag c.flags flag with neverTickable := true })
        (engine_decref_conn e cid flag).2.2 = 1 ∧
      (engine_decref_conn e cid flag).1.nConns = e.nConns - 1 ∧
      (engine_decref_conn e cid flag).1.statsSum
        = e.statsSum + c.stats.getD 0 ∧
      (engine_decref_conn e cid flag).1.statsConns
        = e.statsConns + (if c.stats.isSome then 1 else 0) ∧
      findConn (engine_decref_conn e cid flag).1 cid = none) := by
  constructor
  · intro halive
    rw [engine_decref_conn_alive e cid c flag hfind halive]
    exact ⟨rfl, rfl⟩
  · intro hdead
    rw [engine_decref_conn_dead e cid c flag hfind hdead]
    refine ⟨rfl, rfl, rfl, by simp, ?_, ?_, ?_, findConn_removeConn _ _⟩ <;>
      cases hs : c.stats <;> simp [update_stats_sum, removeConn, hs]

/-- Concrete instantiation of C1: a connection holding only the TICKABLE
reference is destroyed by the decref of TICKABLE. -/
theorem decref_destroys_iff_last_ref_witness :
    findConn c1wEngine 1 = some c1wConn ∧
    getFlag c1wConn.flags ConnFlag.TICKABLE = true ∧
    (engine_decref_conn c1wEngine 1 ConnFlag.TICKABLE).2.1 = none :=
  ⟨by decide, by decide,
    ((decref_destroys_iff_last_ref c1wEngine 1 c1wConn ConnFlag.TICKABLE
        (by decide) (by decide)).2 (by decide)).1⟩

/-! ## C2: TICKABLE and ATTQ are not invariantly exclusive -/

/-- C2 counterexample: from a state satisfying the claimed mutual exclusion
(connection 7 is in the ATTQ only), the engine operation packet_in
(process_packet_in) inserts the connection into the Tickable Queue and sets
TICKABLE without removing it from the ATTQ, producing a state in which both
TICKABLE and ATTQ are set: the claimed invariant is not preserved by every
engine operation. -/
theorem tickable_attq_exclusion_counterexample :
    c2xEngine.conns.all (fun c => !(c.flags.tickable && c.flags.attq)) = true ∧
    ((findConn (process_packet_in c2xEngine c2xPkt 0 0 0).1 7).map
        (fun c => c.flags.tickable && c.flags.attq)) = some true ∧
    (process_packet_in c2xEngine c2xPkt 0 0 0).1.attq = [(50, 7)] ∧
    (process_packet_in c2xEngine c2xPkt 0 0 0).2.1 = 0 := by
  decide

/-- C2 (amended): exclusion holds only in the ATTQ-insertion direction, and
the overlap is resolved lazily: lsquic_engine_add_conn_to_attq never inserts
a TICKABLE connection into the ATTQ (it leaves the engine untouched), while
a connection that acquired TICKABLE while sitting in the ATTQ has both bits
cleared by the time the tickable iterator (conn_iter_next_tickable) returns
it for processing. -/
theorem tickable_attq_lazy_exclusion :
    (∀ (e : Engine) (cid t : Nat) (c : Conn), findConn e cid = some c →
      c.flags.tickable = true →
      lsquic_engine_add_conn_to_attq e cid t = e) ∧
    (∀ e : Engine,
      match conn_iter_next_tickable e with
      | (e2, some cid, _) =>
          (findConn e2 cid).map (fun c => c.flags.tickable || c.flags.attq)
            = some false
      | (_, none, _) => True) := by
  constructor
  · intro e cid t c hfind ht
    simp [lsquic_engine_add_conn_to_attq, hfind, ht]
  · intro e
    unfold conn_iter_next_tickable
    cases hpop : mhPop e.tickableQ with
    | none => simp
    | some pr =>
      obtain ⟨⟨k, cid0⟩, rest⟩ := pr
      dsimp only
      cases hfind : findConn { e with tickableQ := rest } cid0 with
      | none => simp [engine_decref_conn, hfind]
      | some c =>
        have hcid : c.cid = cid0 := findConn_cid _ _ _ hfind
        cases halive : refFlagsAny (clearFlag c.flags ConnFlag.TICKABLE) with
        | false =>
          rw [engine_decref_conn_dead _ _ _ _ hfind halive]
          trivial
        | true =>
          rw [engine_decref_conn_alive _ _ _ _ hfind halive]
          dsimp only
          have hfind2 : findConn
              (setConn { e with tickableQ := rest }
                { c with flags := clearFlag c.flags ConnFlag.TICKABLE }) cid0
              = some { c with flags := clearFlag c.flags ConnFlag.TICKABLE } :=
            findConn_setConn_self _ _ _ _ hfind hcid
          rw [hfind2]
          dsimp only
          have htk : (clearFlag c.flags ConnFlag.TICKABLE).tickable = false := by
            simp [clearFlag]
          cases hattq : (clearFlag c.flags ConnFlag.TICKABLE).attq with
          | false =>
            simp only [hattq, Bool.false_eq_true, if_false]
            rw [hfind2]
            simp [htk, hattq]
          | true =>
            simp only [hattq, if_true]
            have hfind3 : findConn
                { setConn { e with tickableQ := rest }
                    { c with flags := clearFlag c.flags ConnFlag.TICKABLE } with
                  attq := attqRemove (setConn { e with tickableQ := rest }
                    { c with flags :=
                        clearFlag c.flags ConnFlag.TICKABLE }).attq cid0 } cid0
                = some { c with flags := clearFlag c.flags ConnFlag.TICKABLE } :=
              hfind2
            cases halive2 : refFlagsAny
                (clearFlag (clearFlag c.flags ConnFlag.TICKABLE) ConnFlag.ATTQ) with
            | false =>
              rw [engine_decref_conn_dead _ _ _ _ hfind3 halive2]
              trivial
            | true =>
              rw [engine_decref_conn_alive _ _ _ _ hfind3 halive2]
              dsimp only
              have hfind4 := findConn_setConn_self _ cid0
                { c with flags := clearFlag c.flags ConnFlag.TICKABLE }
                { { c with flags := clearFlag c.flags ConnFlag.TICKABLE } with
                  flags := clearFlag
                    { c with flags := clearFlag c.flags ConnFlag.TICKABLE }.flags
                    ConnFlag.ATTQ } hfind3 hcid
              rw [hfind4]
              simp [clearFlag]

/-- Concrete instantiation of the first half of C2 (amended): adding a
TICKABLE connection to the ATTQ leaves the engine unchanged. -/
theorem tickable_attq_lazy_exclusion_witness :
    findConn c2wEngine 9 = some c2wConn ∧ c2wConn.flags.tickable = true ∧
    lsquic_engine_add_conn_to_attq c2wEngine 9 77 = c2wEngine :=
  ⟨by decide, by decide,
    tickable_attq_lazy_exclusion.1 c2wEngine 9 77 c2wConn (by decide) (by decide)⟩

/-! ## C8: earliest_adv_tick -/

/-- C8: earliest_adv_tick returns 1 with diff = 0 when the Outgoing Queue is
non-empty and the previous processing call went past its deadline, or when
the Tickable Queue is non-empty; otherwise it computes the next wakeup as
attq.next_time, folding in resume_sending_at when sending is disabled, and
returns the signed microsecond difference to now (through a C int, whose
truncation is the identity whenever the difference fits in 32 bits); it
returns 0 (none) exactly when sending is enabled and the ATTQ is empty. -/
theorem earliest_adv_tick_spec (e : Engine) (now : Nat) :
    (e.pastDeadline = true → e.outQ ≠ [] →
      lsquic_engine_earliest_adv_tick e now = some 0) ∧
    (e.tickableQ ≠ [] → lsquic_engine_earliest_adv_tick e now = some 0) ∧
    (∀ t : Nat, (e.pastDeadline = false ∨ e.outQ = []) → e.tickableQ = [] →
      attqNextTime e.attq = some t →
      lsquic_engine_earliest_adv_tick e now =
        some (toInt32
          (((if e.canSend then t else min t e.resumeSendingAt) : Int)
            - (now : Int)))) ∧
    ((e.pastDeadline = false ∨ e.outQ = []) → e.tickableQ = [] →
      attqNextTime e.attq = none → e.canSend = false →
      lsquic_engine_earliest_adv_tick e now =
        some (toInt32 ((e.resumeSendingAt : Int) - (now : Int)))) ∧
    (lsquic_engine_earliest_adv_tick e now = none ↔
      ((e.pastDeadline = false ∨ e.outQ = []) ∧ e.tickableQ = [] ∧
       attqNextTime e.attq = none ∧ e.canSend = true)) ∧
    (∀ x : Int, -(2 ^ 31) ≤ x → x < 2 ^ 31 → toInt32 x = x) := by
  refine ⟨?_, ?_, ?_, ?_, ?_, ?_⟩
  · intro hpd hq
    simp [lsquic_engine_earliest_adv_tick, hpd, List.length_pos, hq]
  · intro hq
    simp [lsquic_engine_earliest_adv_tick, List.length_pos, hq]
  · intro t hfast htk hattq
    have hfast' : (e.pastDeadline && decide (0 < e.outQ.length)) = false := by
      rcases hfast with h | h <;> simp [h]
    simp only [lsquic_engine_earliest_adv_tick, hfast', htk, List.length_nil,
      lt_irrefl, decide_eq_true_eq, Bool.false_or, decide_eq_false_iff_not,
      not_lt, Nat.le_zero, if_neg, hattq]
    simp [hattq]
  · intro hfast htk hattq hcs
    have hfast' : (e.pastDeadline && decide (0 < e.outQ.length)) = false := by
      rcases hfast with h | h <;> simp [h]
    simp [lsquic_engine_earliest_adv_tick, hfast', htk, hattq, hcs]
  · constructor
    · intro h
      by_cases hfast : (e.pastDeadline && decide (0 < e.outQ.length))
          || decide (0 < e.tickableQ.length)
      · simp [lsquic_engine_earliest_adv_tick, hfast] at h
      · cases hattq : attqNextTime e.attq with
        | some t => simp [lsquic_engine_earliest_adv_tick, hfast, hattq] at h
        | none =>
          cases hcs : e.canSend with
          | false =>
            simp [lsquic_engine_earliest_adv_tick, hfast, hattq, hcs] at h
          | true =>
            simp only [Bool.or_eq_true, not_or] at hfast
            obtain ⟨hf1, hf2⟩ := hfast
            have htkQ : e.tickableQ = [] := by
              have h0 : ¬0 < e.tickableQ.length := by simpa using hf2
              simpa [List.length_eq_zero] using Nat.le_zero.mp (Nat.not_lt.mp h0)
            have hpd : e.pastDeadline = false ∨ e.outQ = [] := by
              by_cases hb : e.pastDeadline = true
              · right
                have h0 : ¬0 < e.outQ.length := by
                  intro hlt
                  exact hf1 (by simp [hb, hlt])
                simpa [List.length_eq_zero] using Nat.le_zero.mp (Nat.not_lt.mp h0)
              · exact Or.inl (Bool.eq_false_iff.mpr hb)
            exact ⟨hpd, htkQ, rfl, rfl⟩
    · rintro ⟨hfast, htk, hattq, hcs⟩
      have hfast' : (e.pastDeadline && decide (0 < e.outQ.length)) = false := by
        rcases hfast with h | h <;> simp [h]
      simp [lsquic_engine_earliest_adv_tick, hfast', htk, hattq, hcs]
  · intro x h1 h2
    unfold toInt32
    omega

/-- Concrete instantiation of C8: with a single timer at t = 100 and now =
40, earliest_adv_tick reports a 60 microsecond diff. -/
theorem earliest_adv_tick_spec_witness :
    (c8wEngine.pastDeadline = false ∨ c8wEngine.outQ = []) ∧
    c8wEngine.tickableQ = [] ∧ attqNextTime c8wEngine.attq = some 100 ∧
    lsquic_engine_earliest_adv_tick c8wEngine 40 = some 60 := by
  refine ⟨Or.inl rfl, rfl, rfl, ?_⟩
  have h := (earliest_adv_tick_spec c8wEngine 40).2.2.1 100 (Or.inl rfl) rfl rfl
  simpa [toInt32] using h

/-! ## Lemmas about the batch flush loops -/

theorem find?_map_replace_other (l : List Conn) (cid : Nat) (c2 : Conn)
    (h : c2.cid ≠ cid) :
    (l.map (fun x => if x.cid == c2.cid then c2 else x)).find?
        (fun x => x.cid == cid)
      = l.find? (fun x => x.cid == cid) := by
  induction l with
  | nil => rfl
  | cons a l ih =>
    simp only [List.map_cons]
    by_cases ha : a.cid = c2.cid
    · have h1 : (a.cid == cid) = false := by simp [ha, h]
      have h2 : (c2.cid == cid) = false := by simp [h]
      rw [if_pos (by simp [ha]), List.find?_cons_of_neg _ (by simp [h]),
        List.find?_cons_of_neg _ (by simp [ha, h]), ih]
    · rw [if_neg (by simp [ha])]
      by_cases hac : a.cid = cid
      · rw [List.find?_cons_of_pos _ (by simp [hac]),
          List.find?_cons_of_pos _ (by simp [hac])]
      · rw [List.find?_cons_of_neg _ (by simp [hac]),
          List.find?_cons_of_neg _ (by simp [hac]), ih]

theorem findConn_setConn_other (e : Engine) (cid : Nat) (c2 : Conn)
    (h : c2.cid ≠ cid) : findConn (setConn e c2) cid = findConn e cid := by
  simpa [findConn, setConn] using find?_map_replace_other e.conns cid c2 h

/-- The events of the sent loop depend only on the processed entries. -/
theorem sentLoop_snd (now : Nat) (l : List (Nat × (Nat × PacketOut))) :
    ∀ e : Engine,
    (sentLoop e now l).2 = l.flatMap (fun x =>
      Event.packetSent x.2.1 x.2.2.pid ::
        (if x.2.2.encrypted then [Event.pmiRelease x.2.2.pid] else [])) := by
  induction l with
  | nil => intro e; simp [sentLoop]
  | cons a l ih =>
    intro e
    obtain ⟨i, cid, pkt⟩ := a
    simp [sentLoop, ih]

/-- The events of the not-sent loop depend only on the processed entries. -/
theorem notSentLoop_snd (l : List (Nat × PacketOut)) :
    ∀ (e : Engine) (it : CoiIter),
    (notSentLoop e it l).2.2
      = l.map (fun x => Event.packetNotSent x.1 x.2.pid) := by
  induction l with
  | nil => intro e it; simp [notSentLoop]
  | cons a l ih =>
    intro e it
    obtain ⟨cid, pkt⟩ := a
    simp only [notSentLoop, List.map_cons]
    cases hfind : findConn e cid
    · simp [ih]
    · split <;> simp [ih]

theorem sentLoop_events (now : Nat) (l : List (Nat × (Nat × PacketOut)))
    (e : Engine) :
    (sentLoop e now l).2.filterMap sentProj
        = l.map (fun x => (x.2.1, x.2.2.pid)) ∧
    (sentLoop e now l).2.filterMap notSentProj = [] ∧
    (sentLoop e now l).2.filterMap releaseProj
        = l.filterMap (fun x => if x.2.2.encrypted then some x.2.2.pid else none) ∧
    noCall (sentLoop e now l).2 = true := by
  rw [sentLoop_snd]
  induction l with
  | nil => simp [noCall]
  | cons a l ih =>
    obtain ⟨i, cid, pkt⟩ := a
    cases hp : pkt.encrypted <;>
      simp [hp, sentProj, notSentProj, releaseProj, isCall, noCall] <;>
      simpa [noCall, sentProj, notSentProj, releaseProj, isCall, hp] using ih

theorem notSentLoop_events (l : List (Nat × PacketOut)) (e : Engine)
    (it : CoiIter) :
    (notSentLoop e it l).2.2.filterMap notSentProj
        = l.map (fun x => (x.1, x.2.pid)) ∧
    (notSentLoop e it l).2.2.filterMap sentProj = [] ∧
    (notSentLoop e it l).2.2.filterMap releaseProj = [] ∧
    noCall (notSentLoop e it l).2.2 = true := by
  rw [notSentLoop_snd]
  refine ⟨?_, ?_, ?_, ?_⟩
  · induction l with
    | nil => rfl
    | cons a l ih => simp [notSentProj, ih]
  · induction l with
    | nil => rfl
    | cons a l ih => simp [sentProj, ih]
  · induction l with
    | nil => rfl
    | cons a l ih => simp [releaseProj, ih]
  · induction l with
    | nil => rfl
    | cons a l ih => simpa [noCall, isCall] using ih

theorem notSentLoop_reactivates (l : List (Nat × PacketOut)) :
    ∀ (e : Engine) (it : CoiIter) (cid : Nat),
    (((∃ p, (cid, p) ∈ l) ∧ ∃ c, findConn e cid = some c ∧
        c.flags.coiActive = false ∧ c.flags.evanescent = false ∧
        c.flags.coiInactive = true)
      ∨ cid ∈ it.activeList) →
    cid ∈ (notSentLoop e it l).2.1.activeList := by
  induction l with
  | nil =>
    intro e it cid h
    rcases h with ⟨⟨p, hp⟩, _⟩ | h
    · simp at hp
    · simpa [notSentLoop] using h
  | cons a l ih =>
    intro e it cid h
    obtain ⟨cid', pkt⟩ := a
    by_cases hc : cid' = cid
    · subst hc
      rcases h with ⟨_, ⟨c, hfind, h1, h2, h3⟩⟩ | h
      · simp only [notSentLoop, hfind, h1, h2, Bool.or_self, Bool.not_false,
          if_pos, coi_reactivate, h3, if_true]
        exact ih _ _ _ (Or.inr (by simp))
      · -- already active: the step keeps the active list membership
        simp only [notSentLoop]
        cases hfind : findConn e cid' with
        | none => exact ih _ _ _ (Or.inr h)
        | some c =>
          by_cases hreact : !(c.flags.coiActive || c.flags.evanescent)
          · simp only [hreact, if_pos]
            unfold coi_reactivate
            rw [hfind]
            by_cases hin : c.flags.coiInactive
            · simp only [hin, if_true]
              exact ih _ _ _ (Or.inr (by simp [h]))
            · simp only [hin, Bool.false_eq_true, if_false]
              exact ih _ _ _ (Or.inr h)
          · simp only [hreact, Bool.false_eq_true, if_false]
            exact ih _ _ _ (Or.inr h)
    · -- a different connection is processed first
      rcases h with ⟨⟨p, hp⟩, ⟨c, hfind, h1, h2, h3⟩⟩ | h
      · have hpl : (cid, p) ∈ l := by
          rcases List.mem_cons.mp hp with h' | h'
          · cases h'; exact absurd rfl hc
          · exact h'
        simp only [notSentLoop]
        cases hfind' : findConn e cid' with
        | none => exact ih _ _ _ (Or.inl ⟨⟨p, hpl⟩, ⟨c, hfind, h1, h2, h3⟩⟩)
        | some c' =>
          have hcid' : c'.cid = cid' := findConn_cid _ _ _ hfind'
          by_cases hreact : !(c'.flags.coiActive || c'.flags.evanescent)
          · simp only [hreact, if_pos]
            unfold coi_reactivate
            rw [hfind']
            by_cases hin : c'.flags.coiInactive
            · simp only [hin, if_true]
              have hfind2 : findConn
                  (setConn e { c' with flags :=
                    { c'.flags with coiInactive := false, coiActive := true } })
                  cid = some c := by
                rw [findConn_setConn_other]
                · exact hfind
                · simpa [hcid'] using hc
              exact ih _ _ _ (Or.inl ⟨⟨p, hpl⟩, ⟨c, hfind2, h1, h2, h3⟩⟩)
            · simp only [hin, Bool.false_eq_true, if_false]
              exact ih _ _ _ (Or.inl ⟨⟨p, hpl⟩, ⟨c, hfind, h1, h2, h3⟩⟩)
          · simp only [hreact, Bool.false_eq_true, if_false]
            exact ih _ _ _ (Or.inl ⟨⟨p, hpl⟩, ⟨c, hfind, h1, h2, h3⟩⟩)
      · simp only [notSentLoop]
        cases hfind' : findConn e cid' with
        | none => exact ih _ _ _ (Or.inr h)
        | some c' =>
          by_cases hreact : !(c'.flags.coiActive || c'.flags.evanescent)
          · simp only [hreact, if_pos]
            unfold coi_reactivate
            rw [hfind']
            by_cases hin : c'.flags.coiInactive
            · simp only [hin, if_true]
              exact ih _ _ _ (Or.inr (by simp [h]))
            · simp only [hin, Bool.false_eq_true, if_false]
              exact ih _ _ _ (Or.inr h)
          · simp only [hreact, Bool.false_eq_true, if_false]
            exact ih _ _ _ (Or.inr h)

theorem scalarView_setConn (e : Engine) (c : Conn) :
    scalarView (setConn e c) = scalarView e := rfl

theorem coi_reactivate_scalar (e : Engine) (it : CoiIter) (cid : Nat) :
    scalarView (coi_reactivate e it cid).1 = scalarView e := by
  unfold coi_reactivate
  cases findConn e cid
  · rfl
  · dsimp only
    split
    · exact scalarView_setConn _ _
    · rfl

theorem notSentLoop_scalar (l : List (Nat × PacketOut)) :
    ∀ (e : Engine) (it : CoiIter),
    scalarView (notSentLoop e it l).1 = scalarView e := by
  induction l with
  | nil => intro e it; rfl
  | cons a l ih =>
    intro e it
    obtain ⟨cid, pkt⟩ := a
    simp only [notSentLoop]
    cases hfind : findConn e cid with
    | none => exact ih _ _
    | some c =>
      dsimp only
      split
      · exact (ih _ _).trans (coi_reactivate_scalar _ _ _)
      · exact ih _ _

theorem sentLoop_scalar (now : Nat) (l : List (Nat × (Nat × PacketOut))) :
    ∀ e : Engine, scalarView (sentLoop e now l).1 = scalarView e := by
  induction l with
  | nil => intro e; rfl
  | cons a l ih =>
    intro e
    obtain ⟨i, cid, pkt⟩ := a
    simp only [sentLoop]
    cases hfind : findConn e cid with
    | none => exact ih _
    | some c => exact (ih _).trans (scalarView_setConn _ _)

/-- The engine scalar state after send_batch: sending is suspended on a
short write, last_sent advances only when packets were accepted, and nothing
else changes. -/
theorem send_batch_scalar (e : Engine) (it : CoiIter)
    (batch : List (Nat × PacketOut)) (ret : Int) (now : Nat) :
    scalarView (send_batch e it batch ret now).1 =
      scalarView
        (let e1 :=
          if ret < (batch.length : Int) then
            { e with canSend := false, resumeSendingAt := now + 1000000 }
          else e
        let nSent : Nat := if ret < 0 then 0 else ret.toNat
        if 0 < nSent then { e1 with lastSent := now + nSent } else e1) := by
  simp only [send_batch]
  exact (notSentLoop_scalar _ _ _).trans (sentLoop_scalar _ _ _)

theorem enumFrom_map_snd_comp {α β : Type _} (f : α → β) :
    ∀ (n : Nat) (l : List α),
    (List.enumFrom n l).map (fun x => f x.2) = l.map f := by
  intro n l
  induction l generalizing n with
  | nil => rfl
  | cons a l ih => simp [List.enumFrom, ih]

theorem enum_map_snd_comp {α β : Type _} (f : α → β) (l : List α) :
    l.enum.map (fun x => f x.2) = l.map f :=
  enumFrom_map_snd_comp f 0 l

/-! ## C5: callback ordering of a batch flush -/

/-- C5: For every batch flush in which the callback accepts k of the n
submitted packets, packet_sent is invoked exactly on the first k packets, in
increasing batch-index order, and only after the callback has returned (the
packets_out call is the first event of the flush); packet_not_sent is
invoked exactly on the remaining n - k packets in strictly decreasing
batch-index order (the reversed failed tail). -/
theorem send_batch_callback_order (e : Engine) (it : CoiIter)
    (batch : List (Nat × PacketOut)) (ret : Int) (now : Nat)
    (h0 : 0 ≤ ret) (h1 : ret ≤ (batch.length : Int)) :
    (send_batch e it batch ret now).2.2.1 = ret.toNat ∧
    (send_batch e it batch ret now).2.2.2.head?
      = some (Event.packetsOutCall batch.length ret.toNat) ∧
    (send_batch e it batch ret now).2.2.2.filterMap sentProj
      = (batch.take ret.toNat).map (fun x => (x.1, x.2.pid)) ∧
    (send_batch e it batch ret now).2.2.2.filterMap notSentProj
      = ((batch.drop ret.toNat).reverse).map (fun x => (x.1, x.2.pid)) := by
  have hns : (if ret < 0 then (0 : Nat) else ret.toNat) = ret.toNat :=
    if_neg (not_lt.mpr h0)
  simp only [send_batch, hns]
  refine ⟨by first | rfl | trivial, by first | rfl | trivial, ?_, ?_⟩
  · simp only [List.filterMap_cons, sentProj, List.filterMap_append]
    rw [(sentLoop_events now _ _).1, (notSentLoop_events _ _ _).2.1,
      List.append_nil]
    exact enum_map_snd_comp (fun x => (x.1, x.2.pid)) (batch.take ret.toNat)
  · simp only [List.filterMap_cons, notSentProj, List.filterMap_append]
    rw [(sentLoop_events now _ _).2.1, (notSentLoop_events _ _ _).1,
      List.nil_append]

/-- Concrete instantiation of C5: three packets submitted, two accepted. -/
theorem send_batch_callback_order_witness :
    (0 : Int) ≤ 2 ∧ (2 : Int) ≤ (([(1, pkt0), (2, pkt0), (3, pkt0)] :
        List (Nat × PacketOut)).length : Int) ∧
    (send_batch engine0 coiInitIter [(1, pkt0), (2, pkt0), (3, pkt0)] 2
        10).2.2.2.filterMap sentProj = [(1, 0), (2, 0)] ∧
    (send_batch engine0 coiInitIter [(1, pkt0), (2, pkt0), (3, pkt0)] 2
        10).2.2.2.filterMap notSentProj = [(3, 0)] := by
  refine ⟨by decide, by decide, ?_, ?_⟩
  · have h := (send_batch_callback_order engine0 coiInitIter
      [(1, pkt0), (2, pkt0), (3, pkt0)] 2 10 (by decide) (by decide)).2.2.1
    simpa using h
  · have h := (send_batch_callback_order engine0 coiInitIter
      [(1, pkt0), (2, pkt0), (3, pkt0)] 2 10 (by decide) (by decide)).2.2.2
    simpa using h

/-! ## C10: a negative packets_out return is treated as zero accepted -/

/-- C10: For every batch flush in which the packets_out callback returns a
negative value, the engine treats it exactly as zero packets accepted:
send_batch behaves identically to a zero return, engine.last_sent is left
unchanged, packet_sent is invoked on no connection, no encrypted buffer is
released to the PMI, every packet of the batch receives packet_not_sent in
strictly decreasing batch-index order, and each connection owning such a
packet that is neither COI-active nor EVANESCENT (it sits on the inactive
list) is reactivated in the iterator's active list. -/
theorem send_batch_negative_return (e : Engine) (it : CoiIter)
    (batch : List (Nat × PacketOut)) (ret : Int) (now : Nat)
    (hneg : ret < 0) (hne : batch ≠ []) :
    send_batch e it batch ret now = send_batch e it batch 0 now ∧
    (send_batch e it batch ret now).2.2.1 = 0 ∧
    (send_batch e it batch ret now).1.lastSent = e.lastSent ∧
    (send_batch e it batch ret now).1.canSend = false ∧
    (send_batch e it batch ret now).2.2.2.filterMap sentProj = [] ∧
    (send_batch e it batch ret now).2.2.2.filterMap releaseProj = [] ∧
    (send_batch e it batch ret now).2.2.2.filterMap notSentProj
      = batch.reverse.map (fun x => (x.1, x.2.pid)) ∧
    (∀ (cid : Nat) (p : PacketOut) (c : Conn),
      (cid, p) ∈ batch → findConn e cid = some c →
      c.flags.coiActive = false → c.flags.evanescent = false →
      c.flags.coiInactive = true →
      cid ∈ (send_batch e it batch ret now).2.1.activeList) := by
  have hlt : ret < (batch.length : Int) :=
    lt_of_lt_of_le hneg (Int.natCast_nonneg _)
  have hlt0 : (0 : Int) < (batch.length : Int) := by
    exact_mod_cast List.length_pos.mpr hne
  have hs := send_batch_scalar e it batch ret now
  simp only [hlt, if_true, ite_true, hneg, lt_irrefl, Nat.lt_irrefl, if_false,
    ite_false, scalarView, Prod.mk.injEq] at hs
  refine ⟨?_, ?_, ?_, ?_, ?_, ?_, ?_, ?_⟩
  · simp [send_batch, hneg, hlt, hlt0]
  · simp [send_batch, hneg]
  · exact hs.2.2.2.2.2.2.2.2.1
  · exact hs.2.2.2.2.2.1
  · simp only [send_batch, hneg, ite_true, if_true, List.take_zero,
      List.enum_nil, sentLoop, List.drop_zero, List.filterMap_cons, sentProj,
      List.nil_append]
    exact (notSentLoop_events _ _ _).2.1
  · simp only [send_batch, hneg, ite_true, if_true, List.take_zero,
      List.enum_nil, sentLoop, List.drop_zero, List.filterMap_cons,
      releaseProj, List.nil_append]
    exact (notSentLoop_events _ _ _).2.2.1
  · simp only [send_batch, hneg, ite_true, if_true, List.take_zero,
      List.enum_nil, sentLoop, List.drop_zero, List.filterMap_cons,
      notSentProj, List.nil_append]
    exact (notSentLoop_events _ _ _).1
  · intro cid p c hmem hfind h1 h2 h3
    simp only [send_batch, hneg, hlt, ite_true, if_true, List.take_zero,
      List.enum_nil, sentLoop, List.drop_zero, lt_self_iff_false, ite_false,
      if_false]
    exact notSentLoop_reactivates _ _ _ _
      (Or.inl ⟨⟨p, List.mem_reverse.mpr hmem⟩, c, hfind, h1, h2, h3⟩)

/-- Concrete instantiation of C10: a one-packet batch whose callback fails
with -1; the inactive owner is reactivated and the packet returned. -/
theorem send_batch_negative_return_witness :
    ((-1 : Int) < 0 ∧ ([((3 : Nat), pkt0)] : List (Nat × PacketOut)) ≠ []) ∧
    (send_batch engine0 coiInitIter [(3, pkt0)] (-1) 9).1.canSend = false ∧
    (send_batch engine0 coiInitIter [(3, pkt0)] (-1) 9).2.2.2.filterMap
      notSentProj = [(3, 0)] :=
  ⟨⟨by decide, by decide⟩,
    (send_batch_negative_return engine0 coiInitIter [(3, pkt0)] (-1) 9
      (by decide) (by decide)).2.2.2.1,
    by
      have h := (send_batch_negative_return engine0 coiInitIter [(3, pkt0)]
        (-1) 9 (by decide) (by decide)).2.2.2.2.2.2.1
      simpa using h⟩

/-! ## Trace composition lemmas -/

theorem isPartialCall_false_of_isCall_false (ev : Event) (h : isCall ev = false) :
    isPartialCall ev = false := by
  cases ev <;> simp_all [isCall, isPartialCall]

theorem noCall_noPartial (l : List Event) (h : noCall l = true) :
    noPartialCall l = true := by
  induction l with
  | nil => rfl
  | cons ev l ih =>
    simp only [noCall, List.all_cons, Bool.and_eq_true, Bool.not_eq_true'] at h
    simp only [noPartialCall, List.all_cons, Bool.and_eq_true,
      Bool.not_eq_true']
    exact ⟨isPartialCall_false_of_isCall_false ev h.1, ih h.2⟩

theorem noPartial_nCAP (l : List Event) (h : noPartialCall l = true) :
    noCallAfterPartial l = true := by
  induction l with
  | nil => rfl
  | cons ev l ih =>
    simp only [noPartialCall, List.all_cons, Bool.and_eq_true,
      Bool.not_eq_true'] at h
    simp only [noCallAfterPartial, h.1, Bool.false_eq_true, if_false]
    exact ih h.2

theorem noPartialCall_append (l1 l2 : List Event) :
    noPartialCall (l1 ++ l2) = (noPartialCall l1 && noPartialCall l2) :=
  List.all_append

theorem noCall_append (l1 l2 : List Event) :
    noCall (l1 ++ l2) = (noCall l1 && noCall l2) :=
  List.all_append

theorem nCAP_append_noCall (l1 l2 : List Event)
    (h1 : noCallAfterPartial l1 = true) (h2 : noCall l2 = true) :
    noCallAfterPartial (l1 ++ l2) = true := by
  induction l1 with
  | nil => exact noPartial_nCAP l2 (noCall_noPartial l2 h2)
  | cons ev l ih =>
    simp only [noCallAfterPartial, List.cons_append] at h1 ⊢
    cases hp : isPartialCall ev with
    | true =>
      simp only [hp, if_true] at h1 ⊢
      show noCall (l ++ l2) = true
      rw [noCall_append, h1, h2]
      rfl
    | false =>
      simp only [hp, Bool.false_eq_true, if_false] at h1 ⊢
      exact ih h1

theorem nCAP_append_noPartial (l1 l2 : List Event)
    (h1 : noPartialCall l1 = true) (h2 : noCallAfterPartial l2 = true) :
    noCallAfterPartial (l1 ++ l2) = true := by
  induction l1 with
  | nil => exact h2
  | cons ev l ih =>
    simp only [noPartialCall, List.all_cons, Bool.and_eq_true,
      Bool.not_eq_true'] at h1
    simp only [List.cons_append, noCallAfterPartial, h1.1, Bool.false_eq_true,
      if_false]
    exact ih h1.2

theorem nCAP_cons_call (n k : Nat) (l : List Event) (h : noCall l = true) :
    noCallAfterPartial (Event.packetsOutCall n k :: l) = true := by
  simp only [noCallAfterPartial]
  cases hp : isPartialCall (Event.packetsOutCall n k) with
  | true => simpa [hp] using h
  | false =>
    simp only [hp, Bool.false_eq_true, if_false]
    exact noPartial_nCAP l (noCall_noPartial l h)

/-! ## Which engine steps emit packets_out calls -/

theorem decref_evs_noCall (e : Engine) (cid : Nat) (f : ConnFlag) :
    noCall (engine_decref_conn e cid f).2.2 = true := by
  unfold engine_decref_conn
  cases findConn e cid
  · rfl
  · dsimp only
    split
    · rfl
    · simp [destroy_conn, noCall, isCall]

theorem remove_hash_evs_noCall (e : Engine) (cid : Nat) :
    noCall (remove_conn_from_hash e cid).2 = true := by
  unfold remove_conn_from_hash
  exact decref_evs_noCall _ _ _

theorem coiReheapInactive_noCall (l : List Nat) :
    ∀ e : Engine, noCall (coiReheapInactive e l).2 = true := by
  induction l with
  | nil => intro e; rfl
  | cons cid l ih =>
    intro e
    simp only [coiReheapInactive]
    rw [noCall_append, decref_evs_noCall, ih]
    rfl

theorem coi_reheap_noCall (e : Engine) (it : CoiIter) :
    noCall (coi_reheap e it).2 = true := by
  unfold coi_reheap
  exact coiReheapInactive_noCall _ _

theorem send_batch_tail_noCall (e : Engine) (it : CoiIter)
    (batch : List (Nat × PacketOut)) (ret : Int) (now : Nat) :
    ∃ n k l, (send_batch e it batch ret now).2.2.2
        = Event.packetsOutCall n k :: l ∧ noCall l = true := by
  refine ⟨batch.length, _, _, rfl, ?_⟩
  rw [noCall_append, (sentLoop_events _ _ _).2.2.2,
    (notSentLoop_events _ _ _).2.2.2]
  rfl

theorem send_batch_nCAP (e : Engine) (it : CoiIter)
    (batch : List (Nat × PacketOut)) (ret : Int) (now : Nat) :
    noCallAfterPartial (send_batch e it batch ret now).2.2.2 = true := by
  obtain ⟨n, k, l, heq, hnc⟩ := send_batch_tail_noCall e it batch ret now
  rw [heq]
  exact nCAP_cons_call n k l hnc

theorem send_batch_noPartial (e : Engine) (it : CoiIter)
    (batch : List (Nat × PacketOut)) (ret : Int) (now : Nat)
    (h : ¬(send_batch e it batch ret now).2.2.1 < batch.length) :
    noPartialCall (send_batch e it batch ret now).2.2.2 = true := by
  simp only [send_batch, noPartialCall, List.all_cons, Bool.and_eq_true,
    Bool.not_eq_true']
  constructor
  · simp only [send_batch] at h
    simpa [isPartialCall] using h
  · rw [← noPartialCall]
    apply noCall_noPartial
    rw [noCall_append]
    rw [(sentLoop_events _ _ _).2.2.2, (notSentLoop_events _ _ _).2.2.2]
    rfl

theorem send_batch_orc_spec (e : Engine) (it : CoiIter)
    (b : List (Nat × PacketOut)) (o : Oracle) :
    ∃ now ret o2, send_batch_orc e it b o
      = ((send_batch e it b ret now).1, (send_batch e it b ret now).2.1,
         (send_batch e it b ret now).2.2.1, o2,
         (send_batch e it b ret now).2.2.2) := by
  unfold send_batch_orc
  rcases hn : o.nextNow with ⟨now, o1⟩
  rcases hr : o1.nextRet b.length with ⟨ret, o2⟩
  refine ⟨now, ret, o2, ?_⟩
  simp only [hn, hr]

theorem send_batch_batchSize (e : Engine) (it : CoiIter)
    (b : List (Nat × PacketOut)) (ret : Int) (now : Nat) :
    (send_batch e it b ret now).1.batchSize = e.batchSize := by
  have h := send_batch_scalar e it b ret now
  simp only [scalarView, Prod.mk.injEq] at h
  rw [h.2.2.2.2.2.2.2.2.2.2.2.1]
  split_ifs <;> rfl

theorem send_batch_orc_nCAP (e : Engine) (it : CoiIter)
    (b : List (Nat × PacketOut)) (o : Oracle) :
    noCallAfterPartial (send_batch_orc e it b o).2.2.2.2 = true := by
  obtain ⟨now, ret, o2, hq⟩ := send_batch_orc_spec e it b o
  rw [hq]
  exact send_batch_nCAP e it b ret now

theorem send_batch_orc_noPartial (e : Engine) (it : CoiIter)
    (b : List (Nat × PacketOut)) (o : Oracle)
    (h : ¬(send_batch_orc e it b o).2.2.1 < b.length) :
    noPartialCall (send_batch_orc e it b o).2.2.2.2 = true := by
  obtain ⟨now, ret, o2, hq⟩ := send_batch_orc_spec e it b o
  rw [hq] at h ⊢
  exact send_batch_noPartial e it b ret now h

theorem send_batch_orc_batchSize (e : Engine) (it : CoiIter)
    (b : List (Nat × PacketOut)) (o : Oracle) :
    (send_batch_orc e it b o).1.batchSize = e.batchSize := by
  obtain ⟨now, ret, o2, hq⟩ := send_batch_orc_spec e it b o
  rw [hq]
  exact send_batch_batchSize e it b ret now

theorem check_deadline_batchSize (e : Engine) (o : Oracle) :
    (check_deadline e o).1.batchSize = e.batchSize := by
  unfold check_deadline
  rcases hd : o.nextDl with ⟨b, o1⟩
  simp only [hd]
  split <;> rfl

/-- The tail of the drain never emits a packets_out call after a partial
one: the optional final flush is the last call of the drain. -/
theorem drainFinish_nCAP (st : DrainSt) (h : noPartialCall st.evs = true) :
    noCallAfterPartial (drainFinish st).evs = true := by
  unfold drainFinish
  by_cases hb : 0 < st.batch.length
  · simp only [hb, if_true]
    obtain ⟨now, ret, o2, hq⟩ := send_batch_orc_spec st.e st.it st.batch st.orc
    rw [hq]
    rcases hcd : check_deadline (send_batch st.e st.it st.batch ret now).1 o2
      with ⟨e2, dlEx, o3⟩
    simp only [hcd]
    dsimp only
    apply nCAP_append_noCall
    · exact nCAP_append_noPartial _ _ h (send_batch_nCAP _ _ _ _ _)
    · exact coi_reheap_noCall _ _
  · simp only [hb, if_false]
    exact nCAP_append_noCall _ _ (noPartial_nCAP _ h) (coi_reheap_noCall _ _)

/-- Variant of the previous lemma for the paths that reach the finish with
an empty batch but possibly a partial call already recorded (the in-loop
partial-send break). -/
theorem drainFinish_nCAP_empty (st : DrainSt) (hb : st.batch = [])
    (h : noCallAfterPartial st.evs = true) :
    noCallAfterPartial (drainFinish st).evs = true := by
  unfold drainFinish
  rw [hb]
  simp only [List.length_nil, lt_self_iff_false, if_false]
  exact nCAP_append_noCall _ _ h (coi_reheap_noCall _ _)

theorem noPartial_single (ev : Event) (h : isCall ev = false) :
    noPartialCall [ev] = true := by
  simp [noPartialCall, isPartialCall_false_of_isCall_false ev h]

theorem noPartial_extend (l1 l2 : List Event) (h1 : noPartialCall l1 = true)
    (h2 : noPartialCall l2 = true) : noPartialCall (l1 ++ l2) = true := by
  rw [noPartialCall_append, h1, h2]
  rfl

/-- The step of the collection loop preserves the no-call-after-partial
discipline, given that the continuation does. -/
theorem drainStepGo_nCAP (recur : DrainSt → DrainSt)
    (hloop : ∀ st : DrainSt, noPartialCall st.evs = true →
      noCallAfterPartial (recur st).evs = true) :
    ∀ (st : DrainSt) (cid : Nat) (pkt : PacketOut),
      noPartialCall st.evs = true →
      noCallAfterPartial (drainStepGo recur st cid pkt).evs = true := by
  intro st cid pkt h
  unfold drainStepGo
  cases hfull : (st.batch ++ [(cid, pkt)]).length == st.e.batchSize with
  | false =>
    simp only [hfull, Bool.false_eq_true, if_false]
    exact hloop _ h
  | true =>
    simp only [hfull, if_true]
    obtain ⟨now, ret, o2, hq⟩ :=
      send_batch_orc_spec st.e st.it (st.batch ++ [(cid, pkt)]) st.orc
    rw [hq]
    have hbs : (send_batch st.e st.it (st.batch ++ [(cid, pkt)]) ret now).1.batchSize
        = st.e.batchSize := send_batch_batchSize _ _ _ _ _
    by_cases hw : (send_batch st.e st.it (st.batch ++ [(cid, pkt)]) ret now).2.2.1
        < (send_batch st.e st.it (st.batch ++ [(cid, pkt)]) ret now).1.batchSize
    · simp only [hw, if_true]
      exact drainFinish_nCAP_empty _ rfl
        (nCAP_append_noPartial _ _ h (send_batch_nCAP _ _ _ _ _))
    · simp only [hw, if_false]
      have hlen : (st.batch ++ [(cid, pkt)]).length = st.e.batchSize := by
        simpa using hfull
      have hnp : noPartialCall
          (send_batch st.e st.it (st.batch ++ [(cid, pkt)]) ret now).2.2.2
          = true := by
        apply send_batch_noPartial
        rw [hlen, ← hbs]
        exact hw
      rcases hcd : check_deadline
          (send_batch st.e st.it (st.batch ++ [(cid, pkt)]) ret now).1 o2
        with ⟨e2, dlEx, o3⟩
      simp only [hcd]
      cases dlEx with
      | true =>
        simp only [if_true]
        exact drainFinish_nCAP _ (noPartial_extend _ _ h hnp)
      | false =>
        simp only [Bool.false_eq_true, if_false]
        exact hloop _ (noPartial_extend _ _ h hnp)

/-- No packets_out call of an egress drain follows a partial one: after a
short or failed write the collection loop stops and, at most, finishes the
bookkeeping of the already-flushed batch. -/
theorem drainLoop_nCAP (fuel : Nat) :
    ∀ st : DrainSt, noPartialCall st.evs = true →
      noCallAfterPartial (drainLoop fuel st).evs = true := by
  induction fuel with
  | zero =>
    intro st h
    simpa [drainLoop] using noPartial_nCAP _ h
  | succ fuel ih =>
    intro st h
    rw [drainLoop]
    rcases hnext : coi_next st.e st.it with ⟨e1, it1, oc⟩
    simp only [hnext]
    cases oc with
    | none => exact drainFinish_nCAP _ h
    | some cid =>
      dsimp only
      cases hfc : findConn e1 cid with
      | none => exact ih _ h
      | some c =>
        dsimp only
        cases hpk : c.packets with
        | nil => exact ih _ h
        | cons pkt rest =>
          dsimp only
          cases hb : pkt.encrypted && (pkt.encIpv6 != c.peerIpv6) with
          | true =>
            simp only [hb, if_true]
            cases hne : pkt.noencrypt with
            | true =>
              simp only [hne, Bool.or_true, Bool.not_true, Bool.false_eq_true,
                if_false]
              exact drainStepGo_nCAP (drainLoop fuel) ih _ cid _
                (noPartial_extend _ _ h rfl)
            | false =>
              simp only [hne, Bool.or_false, Bool.not_false, if_true]
              cases hres : pkt.encResult with
              | ok =>
                exact drainStepGo_nCAP (drainLoop fuel) ih _ cid _
                  (noPartial_extend _ _ h rfl)
              | nomem =>
                refine drainFinish_nCAP _ ?_
                exact noPartial_extend _ _ (noPartial_extend _ _ h rfl)
                  (noPartial_single _ rfl)
              | badcrypt =>
                cases hevan : c.flags.evanescent with
                | true =>
                  simp only [hevan, Bool.not_true, Bool.false_eq_true, if_false]
                  exact ih _ (noPartial_extend _ _ h
                    (noPartial_extend _ _ rfl (noPartial_single _ rfl)))
                | false =>
                  simp only [hevan, Bool.not_false, if_true]
                  have hnp2 : noPartialCall ([Event.pmiReturn pkt.pid] ++
                      [Event.packetNotSent cid pkt.pid]) = true := rfl
                  cases hcl : c.flags.closing with
                  | true =>
                    simp only [hcl, Bool.not_true, Bool.false_eq_true, if_false]
                    cases htk : c.flags.ticked with
                    | true =>
                      simp only [htk, if_true]
                      refine ih _ ?_
                      refine noPartial_extend _ _ (noPartial_extend _ _
                        (noPartial_extend _ _ h hnp2) rfl) ?_
                      exact noCall_noPartial _ (decref_evs_noCall _ _ _)
                    | false =>
                      simp only [htk, Bool.false_eq_true, if_false]
                      exact ih _ (noPartial_extend _ _ (noPartial_extend _ _
                        (noPartial_extend _ _ h hnp2) rfl) rfl)
                  | false =>
                    simp only [hcl, Bool.not_false, if_true]
                    cases hh : c.flags.hashed with
                    | true =>
                      simp only [hh, if_true]
                      cases htk : c.flags.ticked with
                      | true =>
                        simp only [htk, if_true]
                        refine ih _ ?_
                        refine noPartial_extend _ _ (noPartial_extend _ _
                          (noPartial_extend _ _ h hnp2) ?_) ?_
                        · exact noCall_noPartial _ (remove_hash_evs_noCall _ _)
                        · exact noCall_noPartial _ (decref_evs_noCall _ _ _)
                      | false =>
                        simp only [htk, Bool.false_eq_true, if_false]
                        refine ih _ ?_
                        refine noPartial_extend _ _ (noPartial_extend _ _
                          (noPartial_extend _ _ h hnp2) ?_) rfl
                        exact noCall_noPartial _ (remove_hash_evs_noCall _ _)
                    | false =>
                      simp only [hh, Bool.false_eq_true, if_false]
                      cases htk : c.flags.ticked with
                      | true =>
                        simp only [htk, if_true]
                        refine ih _ ?_
                        refine noPartial_extend _ _ (noPartial_extend _ _
                          (noPartial_extend _ _ h hnp2) rfl) ?_
                        exact noCall_noPartial _ (decref_evs_noCall _ _ _)
                      | false =>
                        simp only [htk, Bool.false_eq_true, if_false]
                        exact ih _ (noPartial_extend _ _ (noPartial_extend _ _
                          (noPartial_extend _ _ h hnp2) rfl) rfl)
          | false =>
            simp only [hb, Bool.false_eq_true, if_false]
            cases hor : pkt.encrypted || pkt.noencrypt with
            | true =>
              simp only [hor, Bool.not_true, Bool.false_eq_true, if_false]
              exact drainStepGo_nCAP (drainLoop fuel) ih _ cid _
                (noPartial_extend _ _ h rfl)
            | false =>
              simp only [hor, Bool.not_false, if_true]
              cases hres : pkt.encResult with
              | ok =>
                exact drainStepGo_nCAP (drainLoop fuel) ih _ cid _
                  (noPartial_extend _ _ h rfl)
              | nomem =>
                refine drainFinish_nCAP _ ?_
                exact noPartial_extend _ _ (noPartial_extend _ _ h rfl)
                  (noPartial_single _ rfl)
              | badcrypt =>
                cases hevan : c.flags.evanescent with
                | true =>
                  simp only [hevan, Bool.not_true, Bool.false_eq_true, if_false]
                  exact ih _ (noPartial_extend _ _ h
                    (noPartial_extend _ _ rfl (noPartial_single _ rfl)))
                | false =>
                  simp only [hevan, Bool.not_false, if_true]
                  have hnp2 : noPartialCall (([] : List Event) ++
                      [Event.packetNotSent cid pkt.pid]) = true := rfl
                  cases hcl : c.flags.closing with
                  | true =>
                    simp only [hcl, Bool.not_true, Bool.false_eq_true, if_false]
                    cases htk : c.flags.ticked with
                    | true =>
                      simp only [htk, if_true]
                      refine ih _ ?_
                      refine noPartial_extend _ _ (noPartial_extend _ _
                        (noPartial_extend _ _ h hnp2) rfl) ?_
                      exact noCall_noPartial _ (decref_evs_noCall _ _ _)
                    | false =>
                      simp only [htk, Bool.false_eq_true, if_false]
                      exact ih _ (noPartial_extend _ _ (noPartial_extend _ _
                        (noPartial_extend _ _ h hnp2) rfl) rfl)
                  | false =>
                    simp only [hcl, Bool.not_false, if_true]
                    cases hh : c.flags.hashed with
                    | true =>
                      simp only [hh, if_true]
                      cases htk : c.flags.ticked with
                      | true =>
                        simp only [htk, if_true]
                        refine ih _ ?_
                        refine noPartial_extend _ _ (noPartial_extend _ _
                          (noPartial_extend _ _ h hnp2) ?_) ?_
                        · exact noCall_noPartial _ (remove_hash_evs_noCall _ _)
                        · exact noCall_noPartial _ (decref_evs_noCall _ _ _)
                      | false =>
                        simp only [htk, Bool.false_eq_true, if_false]
                        refine ih _ ?_
                        refine noPartial_extend _ _ (noPartial_extend _ _
                          (noPartial_extend _ _ h hnp2) ?_) rfl
                        exact noCall_noPartial _ (remove_hash_evs_noCall _ _)
                    | false =>
                      simp only [hh, Bool.false_eq_true, if_false]
                      cases htk : c.flags.ticked with
                      | true =>
                        simp only [htk, if_true]
                        refine ih _ ?_
                        refine noPartial_extend _ _ (noPartial_extend _ _
                          (noPartial_extend _ _ h hnp2) rfl) ?_
                        exact noCall_noPartial _ (decref_evs_noCall _ _ _)
                      | false =>
                        simp only [htk, Bool.false_eq_true, if_false]
                        exact ih _ (noPartial_extend _ _ (noPartial_extend _ _
                          (noPartial_extend _ _ h hnp2) rfl) rfl)

theorem engine_decref_conn_canSend (e : Engine) (cid : Nat) (f : ConnFlag) :
    (engine_decref_conn e cid f).1.canSend = e.canSend := by
  unfold engine_decref_conn
  cases hfind : findConn e cid with
  | none => rfl
  | some c =>
    dsimp only
    split
    · rfl
    · unfold destroy_conn update_stats_sum
      cases c.stats <;> rfl

theorem remove_conn_from_hash_canSend (e : Engine) (cid : Nat) :
    (remove_conn_from_hash e cid).1.canSend = e.canSend := by
  unfold remove_conn_from_hash
  exact engine_decref_conn_canSend _ _ _

theorem conn_iter_next_tickable_frame (e : Engine) :
    (conn_iter_next_tickable e).1.canSend = e.canSend ∧
    noCall (conn_iter_next_tickable e).2.2 = true := by
  unfold conn_iter_next_tickable
  cases hpop : mhPop e.tickableQ with
  | none => exact ⟨rfl, rfl⟩
  | some pr =>
    obtain ⟨⟨k, cid⟩, rest⟩ := pr
    dsimp only
    cases hr : (engine_decref_conn { e with tickableQ := rest } cid
        ConnFlag.TICKABLE).2.1 with
    | none =>
      simp only [hr]
      exact ⟨engine_decref_conn_canSend _ _ _, decref_evs_noCall _ _ _⟩
    | some cid2 =>
      simp only [hr]
      cases hfc : findConn (engine_decref_conn { e with tickableQ := rest } cid
          ConnFlag.TICKABLE).1 cid2 with
      | none =>
        simp only [hfc]
        exact ⟨engine_decref_conn_canSend _ _ _, decref_evs_noCall _ _ _⟩
      | some c =>
        simp only [hfc]
        cases hattq : c.flags.attq with
        | true =>
          simp only [hattq, if_true]
          constructor
          · rw [engine_decref_conn_canSend]
            exact engine_decref_conn_canSend _ _ _
          · rw [noCall_append, decref_evs_noCall, decref_evs_noCall]
            rfl
        | false =>
          simp only [hattq, Bool.false_eq_true, if_false]
          exact ⟨engine_decref_conn_canSend _ _ _, decref_evs_noCall _ _ _⟩

theorem tickLoop_frame (fuel : Nat) :
    ∀ (e : Engine) (now i : Nat) (ticked closed : List Nat) (evs : List Event),
    (tickLoop fuel e now i ticked closed evs).1.canSend = e.canSend ∧
    (noCall evs = true →
      noCall (tickLoop fuel e now i ticked closed evs).2.2.2.2 = true) := by
  induction fuel with
  | zero => intro e now i ticked closed evs; exact ⟨rfl, fun h => h⟩
  | succ fuel ih =>
    intro e now i ticked closed evs
    rw [tickLoop]
    rcases hit : conn_iter_next_tickable e with ⟨e1, oc, evs0⟩
    have hframe := conn_iter_next_tickable_frame e
    rw [hit] at hframe
    simp only [hit]
    cases oc with
    | none =>
      refine ⟨hframe.1, fun h => ?_⟩
      rw [noCall_append, h, hframe.2]
      rfl
    | some cid =>
      dsimp only
      cases hfc : findConn e1 cid with
      | none =>
        refine ⟨hframe.1, fun h => ?_⟩
        rw [noCall_append, h, hframe.2]
        rfl
      | some c =>
        dsimp only [engine_incref_conn, setFlag]
        cases hsend : c.tickSend && !c.flags.hasOutgoing with
        | true =>
          simp only [hsend, if_true]
          cases hclose : c.tickClose with
          | true =>
            cases hh : c.flags.hashed with
            | true =>
              simp only [eq_self_iff_true, if_true, Bool.false_eq_true, if_false]
              constructor
              · rw [(ih _ _ _ _ _ _).1, remove_conn_from_hash_canSend]
                exact hframe.1
              · intro h
                refine (ih _ _ _ _ _ _).2 ?_
                rw [noCall_append, noCall_append, noCall_append, h, hframe.2]
                rw [remove_hash_evs_noCall]
                rfl
            | false =>
              simp only [eq_self_iff_true, if_true, Bool.false_eq_true, if_false]
              constructor
              · rw [(ih _ _ _ _ _ _).1]
                exact hframe.1
              · intro h
                refine (ih _ _ _ _ _ _).2 ?_
                rw [noCall_append, noCall_append, noCall_append, h, hframe.2]
                rfl
          | false =>
            simp only [eq_self_iff_true, if_true, Bool.false_eq_true, if_false]
            constructor
            · rw [(ih _ _ _ _ _ _).1]
              exact hframe.1
            · intro h
              refine (ih _ _ _ _ _ _).2 ?_
              rw [noCall_append, noCall_append, h, hframe.2]
              rfl
        | false =>
          simp only [hsend, Bool.false_eq_true, if_false]
          cases hclose : c.tickClose with
          | true =>
            cases hh : c.flags.hashed with
            | true =>
              simp only [eq_self_iff_true, if_true, Bool.false_eq_true, if_false]
              constructor
              · rw [(ih _ _ _ _ _ _).1, remove_conn_from_hash_canSend]
                exact hframe.1
              · intro h
                refine (ih _ _ _ _ _ _).2 ?_
                rw [noCall_append, noCall_append, noCall_append, h, hframe.2]
                rw [remove_hash_evs_noCall]
                rfl
            | false =>
              simp only [eq_self_iff_true, if_true, Bool.false_eq_true, if_false]
              constructor
              · rw [(ih _ _ _ _ _ _).1]
                exact hframe.1
              · intro h
                refine (ih _ _ _ _ _ _).2 ?_
                rw [noCall_append, noCall_append, noCall_append, h, hframe.2]
                rfl
          | false =>
            simp only [eq_self_iff_true, if_true, Bool.false_eq_true, if_false]
            constructor
            · rw [(ih _ _ _ _ _ _).1]
              exact hframe.1
            · intro h
              refine (ih _ _ _ _ _ _).2 ?_
              rw [noCall_append, noCall_append, h, hframe.2]
              rfl

theorem closedDrain_noCall (l : List Nat) :
    ∀ e : Engine, noCall (closedDrain e l).2 = true := by
  induction l with
  | nil => intro e; rfl
  | cons cid l ih =>
    intro e
    simp only [closedDrain]
    rw [noCall_append, decref_evs_noCall, ih]
    rfl

theorem tickedDrain_noCall (l : List Nat) :
    ∀ e : Engine, noCall (tickedDrain e l).2 = true := by
  induction l with
  | nil => intro e; rfl
  | cons cid l ih =>
    intro e
    simp only [tickedDrain]
    rw [noCall_append, decref_evs_noCall, ih]
    rfl

theorem send_batch_partial_backpressure (e : Engine) (it : CoiIter)
    (batch : List (Nat × PacketOut)) (ret : Int) (now : Nat)
    (h : ret < (batch.length : Int)) :
    (send_batch e it batch ret now).1.canSend = false ∧
    (send_batch e it batch ret now).1.resumeSendingAt = now + 1000000 := by
  have hs := send_batch_scalar e it batch ret now
  simp only [scalarView, Prod.mk.injEq] at hs
  constructor
  · rw [hs.2.2.2.2.2.1, if_pos h, apply_ite (fun t : Engine => t.canSend)]
    simp
  · rw [hs.2.2.2.2.2.2.2.2.2.2.1, if_pos h,
      apply_ite (fun t : Engine => t.resumeSendingAt)]
    simp

theorem send_packets_out_nCAP (fuel : Nat) (e : Engine)
    (ticked closed : List Nat) (o : Oracle) :
    noCallAfterPartial (send_packets_out fuel e ticked closed o).2.2.2.2
      = true := by
  unfold send_packets_out
  exact drainLoop_nCAP fuel _ rfl

theorem process_connections_noCall (fuel : Nat) (e : Engine) (now : Nat)
    (o : Oracle) (h : (resume_failsafe e now).canSend = false) :
    noCall (process_connections fuel e now o).2.2 = true := by
  have hkey : e.canSend = false ∧ ¬e.resumeSendingAt < now := by
    unfold resume_failsafe at h
    split at h
    next hcond => simp at h
    next hcond =>
      refine ⟨h, fun hl => hcond ?_⟩
      simp [h, hl]
  have he2 : (resume_failsafe (reset_deadline e now) now).canSend = false := by
    unfold resume_failsafe
    split
    next hcond =>
      exfalso
      apply hkey.2
      simp only [reset_deadline, Bool.and_eq_true, Bool.not_eq_true',
        decide_eq_true_eq] at hcond
      exact hcond.2
    next hcond =>
      simpa [reset_deadline] using hkey.1
  have htl := tickLoop_frame fuel (resume_failsafe (reset_deadline e now) now)
    now 0 [] [] []
  unfold process_connections
  have hguard : ((tickLoop fuel (resume_failsafe (reset_deadline e now) now)
        now 0 [] [] []).1.canSend
      && lsquic_engine_has_unsent_packets
        (tickLoop fuel (resume_failsafe (reset_deadline e now) now)
          now 0 [] [] []).1) = false := by
    rw [htl.1, he2]
    rfl
  simp only [hguard, Bool.false_eq_true, if_false]
  rw [noCall_append, noCall_append, noCall_append]
  rw [htl.2 rfl, closedDrain_noCall, tickedDrain_noCall]
  rfl

/-! ## C3: send backpressure and the one-second resume failsafe -/

/-- C3: A batch flush whose callback accepts fewer packets than submitted
(including a negative error return) clears CAN_SEND and schedules
resume_sending_at = now + 1,000,000 microseconds; within the drain no
further batch follows a partial one; a subsequent processing call
re-enables sending when its current time exceeds resume_sending_at; and
while CAN_SEND remains clear (the failsafe not having fired),
process_connections never invokes the packets_out callback. -/
theorem send_backpressure_failsafe :
    (∀ (e : Engine) (it : CoiIter) (batch : List (Nat × PacketOut))
        (ret : Int) (now : Nat), ret < (batch.length : Int) →
      (send_batch e it batch ret now).1.canSend = false ∧
      (send_batch e it batch ret now).1.resumeSendingAt = now + 1000000) ∧
    (∀ (fuel : Nat) (e : Engine) (ticked closed : List Nat) (o : Oracle),
      noCallAfterPartial (send_packets_out fuel e ticked closed o).2.2.2.2
        = true) ∧
    (∀ (e : Engine) (now : Nat), e.canSend = false →
      e.resumeSendingAt < now → (resume_failsafe e now).canSend = true) ∧
    (∀ (fuel : Nat) (e : Engine) (now : Nat) (o : Oracle),
      (resume_failsafe e now).canSend = false →
      noCall (process_connections fuel e now o).2.2 = true) := by
  refine ⟨?_, ?_, ?_, ?_⟩
  · intro e it batch ret now h
    exact send_batch_partial_backpressure e it batch ret now h
  · intro fuel e ticked closed o
    exact send_packets_out_nCAP fuel e ticked closed o
  · intro e now h1 h2
    simp [resume_failsafe, h1, h2]
  · intro fuel e now o h
    exact process_connections_noCall fuel e now o h

/-- Concrete instantiation of C3: a one-packet batch with zero accepted
disables sending and schedules the failsafe at now + 1,000,000; the
failsafe itself re-enables sending once the time has passed. -/
theorem send_backpressure_failsafe_witness :
    ((0 : Int) < (([((1 : Nat), pkt0)] : List (Nat × PacketOut)).length : Int)) ∧
    (send_batch engine0 coiInitIter [(1, pkt0)] 0 7).1.canSend = false ∧
    (send_batch engine0 coiInitIter [(1, pkt0)] 0 7).1.resumeSendingAt
      = 1000007 ∧
    ({ engine0 with canSend := false, resumeSendingAt := 3 } : Engine).canSend
      = false ∧
    ({ engine0 with canSend := false, resumeSendingAt := 3 } : Engine).resumeSendingAt < 7 ∧
    (resume_failsafe { engine0 with canSend := false, resumeSendingAt := 3 } 7).canSend = true := by
  refine ⟨by decide, ?_, ?_, rfl, by decide, ?_⟩
  · exact (send_backpressure_failsafe.1 engine0 coiInitIter [(1, pkt0)] 0 7
      (by decide)).1
  · have h := (send_backpressure_failsafe.1 engine0 coiInitIter [(1, pkt0)] 0 7
      (by decide)).2
    simpa using h
  · exact send_backpressure_failsafe.2.2.1
      { engine0 with canSend := false, resumeSendingAt := 3 } 7 rfl (by decide)

/-! ## The AIMD batch-size discipline -/

theorem isPow2Batch_cases (b : Nat) (h : isPow2Batch b = true) :
    b = 4 ∨ b = 8 ∨ b = 16 ∨ b = 32 ∨ b = 64 ∨ b = 128 ∨ b = 256 ∨
    b = 512 ∨ b = 1024 := by
  simpa [isPow2Batch, Bool.or_eq_true, beq_iff_eq, or_assoc] using h

theorem grow_batch_size_pow2 (e : Engine) (h : isPow2Batch e.batchSize = true) :
    (grow_batch_size e).batchSize = min (2 * e.batchSize) 1024 ∧
    isPow2Batch (grow_batch_size e).batchSize = true := by
  have hd : (grow_batch_size e).batchSize
      = e.batchSize <<< (if e.batchSize < MAX_OUT_BATCH_SIZE then 1 else 0) := rfl
  rw [hd]
  rcases isPow2Batch_cases _ h with h1|h1|h1|h1|h1|h1|h1|h1|h1 <;>
    rw [h1] <;> decide

theorem shrink_batch_size_pow2 (e : Engine)
    (h : isPow2Batch e.batchSize = true) :
    (shrink_batch_size e).batchSize = max (e.batchSize / 2) 4 ∧
    isPow2Batch (shrink_batch_size e).batchSize = true := by
  have hd : (shrink_batch_size e).batchSize
      = e.batchSize >>> (if MIN_OUT_BATCH_SIZE < e.batchSize then 1 else 0) := rfl
  rw [hd]
  rcases isPow2Batch_cases _ h with h1|h1|h1|h1|h1|h1|h1|h1|h1 <;>
    rw [h1] <;> decide

theorem isPow2Batch_bounds (b : Nat) (h : isPow2Batch b = true) :
    4 ≤ b ∧ b ≤ 1024 := by
  rcases isPow2Batch_cases _ h with h1|h1|h1|h1|h1|h1|h1|h1|h1 <;>
    subst h1 <;> decide

theorem setConn_batchSize (e : Engine) (c : Conn) :
    (setConn e c).batchSize = e.batchSize := rfl

theorem engine_decref_conn_batchSize (e : Engine) (cid : Nat) (f : ConnFlag) :
    (engine_decref_conn e cid f).1.batchSize = e.batchSize := by
  unfold engine_decref_conn
  cases hfind : findConn e cid with
  | none => rfl
  | some c =>
    dsimp only
    split
    · rfl
    · unfold destroy_conn update_stats_sum
      cases c.stats <;> rfl

theorem remove_conn_from_hash_batchSize (e : Engine) (cid : Nat) :
    (remove_conn_from_hash e cid).1.batchSize = e.batchSize := by
  unfold remove_conn_from_hash
  exact engine_decref_conn_batchSize _ _ _

theorem coi_next_batchSize (e : Engine) (it : CoiIter) :
    (coi_next e it).1.batchSize = e.batchSize := by
  unfold coi_next
  cases hpop : mhPop e.outQ with
  | none =>
    dsimp only
    cases it.activeList <;> rfl
  | some pr =>
    obtain ⟨⟨k, cid⟩, rest⟩ := pr
    dsimp only
    cases findConn { e with outQ := rest } cid <;> rfl

theorem coi_deactivate_batchSize (e : Engine) (it : CoiIter) (cid : Nat) :
    (coi_deactivate e it cid).1.batchSize = e.batchSize := by
  unfold coi_deactivate
  cases findConn e cid
  · rfl
  · dsimp only
    split
    · rfl
    · rfl

theorem coiReheapActive_batchSize (l : List Nat) :
    ∀ e : Engine, (coiReheapActive e l).batchSize = e.batchSize := by
  induction l with
  | nil => intro e; rfl
  | cons cid l ih =>
    intro e
    simp only [coiReheapActive]
    cases findConn e cid
    · exact ih _
    · rw [ih]
      rfl

theorem coiReheapInactive_batchSize (l : List Nat) :
    ∀ e : Engine, (coiReheapInactive e l).1.batchSize = e.batchSize := by
  induction l with
  | nil => intro e; rfl
  | cons cid l ih =>
    intro e
    simp only [coiReheapInactive]
    rw [ih, engine_decref_conn_batchSize]
    cases findConn e cid
    · rfl
    · rfl

theorem coi_reheap_batchSize (e : Engine) (it : CoiIter) :
    (coi_reheap e it).1.batchSize = e.batchSize := by
  unfold coi_reheap
  rw [coiReheapInactive_batchSize, coiReheapActive_batchSize]

theorem match_incref_closing_batchSize (e : Engine) (cid : Nat) :
    (match findConn e cid with
      | some c2 => setConn e (engine_incref_conn c2 ConnFlag.CLOSING)
      | none => e).batchSize = e.batchSize := by
  cases findConn e cid <;> rfl

/-- The finish of a drain applies the AIMD feedback once (shrink on a
partial batch, growth only when more than one batch was sent and the
deadline was not exceeded), keeping the batch size a power of two in
range. -/
theorem drainFinish_batchSize (st : DrainSt)
    (h : isPow2Batch st.e.batchSize = true) :
    isPow2Batch (drainFinish st).e.batchSize = true := by
  unfold drainFinish
  by_cases hb : 0 < st.batch.length
  · simp only [hb, if_true]
    obtain ⟨now, ret, o2, hq⟩ := send_batch_orc_spec st.e st.it st.batch st.orc
    rw [hq]
    rcases hcd : check_deadline (send_batch st.e st.it st.batch ret now).1 o2
      with ⟨e2, dlEx, o3⟩
    simp only [hcd]
    have he2 : e2.batchSize = st.e.batchSize := by
      have h1 := check_deadline_batchSize
        (send_batch st.e st.it st.batch ret now).1 o2
      rw [hcd] at h1
      rw [h1, send_batch_batchSize]
    dsimp only
    rw [coi_reheap_batchSize]
    split
    · rw [(shrink_batch_size_pow2 e2 (by rw [he2]; exact h)).1]
      rcases isPow2Batch_cases _ (by rw [he2]; exact h :
          isPow2Batch e2.batchSize = true) with h1|h1|h1|h1|h1|h1|h1|h1|h1 <;>
        rw [h1] <;> decide
    · split
      · exact (grow_batch_size_pow2 e2 (by rw [he2]; exact h)).2
      · rw [he2]; exact h
  · simp only [hb, if_false]
    rw [coi_reheap_batchSize]
    split
    · exact (shrink_batch_size_pow2 st.e h).2
    · split
      · exact (grow_batch_size_pow2 st.e h).2
      · exact h

theorem drainStepGo_batchSize (recur : DrainSt → DrainSt)
    (hrec : ∀ st : DrainSt, isPow2Batch st.e.batchSize = true →
      isPow2Batch (recur st).e.batchSize = true) :
    ∀ (st : DrainSt) (cid : Nat) (pkt : PacketOut),
      isPow2Batch st.e.batchSize = true →
      isPow2Batch (drainStepGo recur st cid pkt).e.batchSize = true := by
  intro st cid pkt h
  unfold drainStepGo
  cases hfull : (st.batch ++ [(cid, pkt)]).length == st.e.batchSize with
  | false =>
    simp only [hfull, Bool.false_eq_true, if_false]
    exact hrec _ h
  | true =>
    simp only [hfull, if_true]
    obtain ⟨now, ret, o2, hq⟩ :=
      send_batch_orc_spec st.e st.it (st.batch ++ [(cid, pkt)]) st.orc
    rw [hq]
    have hbs : (send_batch st.e st.it (st.batch ++ [(cid, pkt)]) ret
        now).1.batchSize = st.e.batchSize := send_batch_batchSize _ _ _ _ _
    by_cases hw : (send_batch st.e st.it (st.batch ++ [(cid, pkt)]) ret
        now).2.2.1
        < (send_batch st.e st.it (st.batch ++ [(cid, pkt)]) ret now).1.batchSize
    · simp only [hw, if_true]
      refine drainFinish_batchSize _ ?_
      rw [hbs]
      exact h
    · simp only [hw, if_false]
      rcases hcd : check_deadline
          (send_batch st.e st.it (st.batch ++ [(cid, pkt)]) ret now).1 o2
        with ⟨e2, dlEx, o3⟩
      simp only [hcd]
      have he2 : e2.batchSize = st.e.batchSize := by
        have h1 := check_deadline_batchSize
          (send_batch st.e st.it (st.batch ++ [(cid, pkt)]) ret now).1 o2
        rw [hcd] at h1
        rw [h1, hbs]
      cases dlEx with
      | true =>
        simp only [if_true]
        refine drainFinish_batchSize _ ?_
        rw [he2]
        exact h
      | false =>
        simp only [Bool.false_eq_true, if_false]
        refine hrec _ ?_
        exact (grow_batch_size_pow2 e2 (by rw [he2]; exact h)).2

/-- The collection loop of send_packets_out only changes the batch size
through grow_batch_size and shrink_batch_size, so it stays a power of two
between MIN_OUT_BATCH_SIZE and MAX_OUT_BATCH_SIZE. -/
theorem drainLoop_batchSize (fuel : Nat) :
    ∀ st : DrainSt, isPow2Batch st.e.batchSize = true →
      isPow2Batch (drainLoop fuel st).e.batchSize = true := by
  induction fuel with
  | zero => intro st h; simpa [drainLoop] using h
  | succ fuel ih =>
    intro st h
    rw [drainLoop]
    rcases hnext : coi_next st.e st.it with ⟨e1, it1, oc⟩
    have he1 : e1.batchSize = st.e.batchSize := by
      have h1 := coi_next_batchSize st.e st.it
      rw [hnext] at h1
      exact h1
    simp only [hnext]
    cases oc with
    | none =>
      refine drainFinish_batchSize _ ?_
      rw [he1]
      exact h
    | some cid =>
      dsimp only
      cases hfc : findConn e1 cid with
      | none =>
        refine ih _ ?_
        rw [he1]
        exact h
      | some c =>
        dsimp only
        cases hpk : c.packets with
        | nil =>
          refine ih _ ?_
          rw [coi_deactivate_batchSize, he1]
          exact h
        | cons pkt rest =>
          dsimp only
          have hset : isPow2Batch (setConn e1
              { c with packets := rest }).batchSize = true := by
            rw [setConn_batchSize, he1]
            exact h
          cases hb : pkt.encrypted && (pkt.encIpv6 != c.peerIpv6) with
          | true =>
            simp only [hb, if_true]
            cases hne : pkt.noencrypt with
            | true =>
              simp only [hne, Bool.or_true, Bool.not_true, Bool.false_eq_true,
                if_false]
              exact drainStepGo_batchSize (drainLoop fuel) ih _ cid _ hset
            | false =>
              simp only [hne, Bool.or_false, Bool.not_false, if_true]
              cases hres : pkt.encResult with
              | ok => exact drainStepGo_batchSize (drainLoop fuel) ih _ cid _ hset
              | nomem => exact drainFinish_batchSize _ hset
              | badcrypt =>
                cases hevan : c.flags.evanescent with
                | true =>
                  simp only [hevan, Bool.not_true, Bool.false_eq_true, if_false]
                  exact ih _ hset
                | false =>
                  simp only [hevan, Bool.not_false, if_true]
                  cases hcl : c.flags.closing with
                  | true =>
                    simp only [hcl, Bool.not_true, Bool.false_eq_true, if_false]
                    cases htk : c.flags.ticked with
                    | true =>
                      simp only [htk, if_true]
                      refine ih _ ?_
                      rw [engine_decref_conn_batchSize, coi_deactivate_batchSize]
                      exact hset
                    | false =>
                      simp only [htk, Bool.false_eq_true, if_false]
                      refine ih _ ?_
                      rw [coi_deactivate_batchSize]
                      exact hset
                  | false =>
                    simp only [hcl, Bool.not_false, if_true]
                    cases hh : c.flags.hashed with
                    | true =>
                      simp only [hh, if_true]
                      cases htk : c.flags.ticked with
                      | true =>
                        simp only [htk, if_true]
                        refine ih _ ?_
                        rw [engine_decref_conn_batchSize, coi_deactivate_batchSize,
                          remove_conn_from_hash_batchSize,
                          match_incref_closing_batchSize, setConn_batchSize, he1]
                        exact h
                      | false =>
                        simp only [htk, Bool.false_eq_true, if_false]
                        refine ih _ ?_
                        rw [coi_deactivate_batchSize,
                          remove_conn_from_hash_batchSize,
                          match_incref_closing_batchSize, setConn_batchSize, he1]
                        exact h
                    | false =>
                      simp only [hh, Bool.false_eq_true, if_false]
                      cases htk : c.flags.ticked with
                      | true =>
                        simp only [htk, if_true]
                        refine ih _ ?_
                        rw [engine_decref_conn_batchSize, coi_deactivate_batchSize,
                          match_incref_closing_batchSize, setConn_batchSize, he1]
                        exact h
                      | false =>
                        simp only [htk, Bool.false_eq_true, if_false]
                        refine ih _ ?_
                        rw [coi_deactivate_batchSize,
                          match_incref_closing_batchSize, setConn_batchSize, he1]
                        exact h
          | false =>
            simp only [hb, Bool.false_eq_true, if_false]
            cases hor : pkt.encrypted || pkt.noencrypt with
            | true =>
              simp only [hor, Bool.not_true, Bool.false_eq_true, if_false]
              exact drainStepGo_batchSize (drainLoop fuel) ih _ cid _ hset
            | false =>
              simp only [hor, Bool.not_false, if_true]
              cases hres : pkt.encResult with
              | ok => exact drainStepGo_batchSize (drainLoop fuel) ih _ cid _ hset
              | nomem => exact drainFinish_batchSize _ hset
              | badcrypt =>
                cases hevan : c.flags.evanescent with
                | true =>
                  simp only [hevan, Bool.not_true, Bool.false_eq_true, if_false]
                  exact ih _ hset
                | false =>
                  simp only [hevan, Bool.not_false, if_true]
                  cases hcl : c.flags.closing with
                  | true =>
                    simp only [hcl, Bool.not_true, Bool.false_eq_true, if_false]
                    cases htk : c.flags.ticked with
                    | true =>
                      simp only [htk, if_true]
                      refine ih _ ?_
                      rw [engine_decref_conn_batchSize, coi_deactivate_batchSize]
                      exact hset
                    | false =>
                      simp only [htk, Bool.false_eq_true, if_false]
                      refine ih _ ?_
                      rw [coi_deactivate_batchSize]
                      exact hset
                  | false =>
                    simp only [hcl, Bool.not_false, if_true]
                    cases hh : c.flags.hashed with
                    | true =>
                      simp only [hh, if_true]
                      cases htk : c.flags.ticked with
                      | true =>
                        simp only [htk, if_true]
                        refine ih _ ?_
                        rw [engine_decref_conn_batchSize, coi_deactivate_batchSize,
                          remove_conn_from_hash_batchSize,
                          match_incref_closing_batchSize, setConn_batchSize, he1]
                        exact h
                      | false =>
                        simp only [htk, Bool.false_eq_true, if_false]
                        refine ih _ ?_
                        rw [coi_deactivate_batchSize,
                          remove_conn_from_hash_batchSize,
                          match_incref_closing_batchSize, setConn_batchSize, he1]
                        exact h
                    | false =>
                      simp only [hh, Bool.false_eq_true, if_false]
                      cases htk : c.flags.ticked with
                      | true =>
                        simp only [htk, if_true]
                        refine ih _ ?_
                        rw [engine_decref_conn_batchSize, coi_deactivate_batchSize,
                          match_incref_closing_batchSize, setConn_batchSize, he1]
                        exact h
                      | false =>
                        simp only [htk, Bool.false_eq_true, if_false]
                        refine ih _ ?_
                        rw [coi_deactivate_batchSize,
                          match_incref_closing_batchSize, setConn_batchSize, he1]
                        exact h

theorem send_packets_out_batchSize (fuel : Nat) (e : Engine)
    (ticked closed : List Nat) (o : Oracle)
    (h : isPow2Batch e.batchSize = true) :
    isPow2Batch (send_packets_out fuel e ticked closed o).1.batchSize = true := by
  unfold send_packets_out
  exact drainLoop_batchSize fuel _ h

/-- The finish of a drain with nothing left to flush and the shrink flag up
applies shrink_batch_size exactly once. -/
theorem drainFinish_shrink_noflush (st : DrainSt) (hb : st.batch = [])
    (hs : st.shrink = true) :
    (drainFinish st).e.batchSize = (shrink_batch_size st.e).batchSize := by
  unfold drainFinish
  have hb0 : ¬ 0 < st.batch.length := by simp [hb]
  simp only [hb0, if_false]
  simp only [hs, if_true]
  rw [coi_reheap_batchSize]

/-- C4 counterexample: a drain whose only batch is the lone final flush,
fully accepted (packets_out was called once with 1 packet and accepted 1),
does not grow the batch size: it stays at 32 instead of becoming
min(2 × 32, 1024) = 64, because the end-of-drain flush grows only when more
than one batch was sent and the deadline was not exceeded — unlike the
in-loop flush of a full batch, which always grows on full acceptance. -/
theorem batch_growth_counterexample :
    c4xEngine.batchSize = 32 ∧
    (send_packets_out 10 c4xEngine [] [] c4xOrc).2.2.2.2.filterMap callProj
      = [(1, 1)] ∧
    (send_packets_out 10 c4xEngine [] [] c4xOrc).1.batchSize = 32 := by
  decide

/-- C4 (amended): (i) after an in-loop full batch that the callback accepted
in full and whose deadline check did not fire, the drain immediately
continues with batch size min(2b, 1024), irrespective of how many batches
were sent before; (ii) after an in-loop partial batch the drain ends with
batch size max(b / 2, 4); (iii) a partial final flush likewise ends the
drain with max(b / 2, 4); (iv) a fully accepted final flush that is the
drain's only batch leaves the batch size unchanged; (v) every drain keeps
the batch size a power of two within [4, 1024]. -/
theorem batch_size_aimd :
    (∀ (recur : DrainSt → DrainSt) (st : DrainSt) (cid : Nat)
        (pkt : PacketOut),
      ((st.batch ++ [(cid, pkt)]).length == st.e.batchSize) = true →
      ¬ (send_batch_orc st.e st.it (st.batch ++ [(cid, pkt)]) st.orc).2.2.1
          < (send_batch_orc st.e st.it (st.batch ++ [(cid, pkt)])
              st.orc).1.batchSize →
      (check_deadline
          (send_batch_orc st.e st.it (st.batch ++ [(cid, pkt)]) st.orc).1
          (send_batch_orc st.e st.it (st.batch ++ [(cid, pkt)])
            st.orc).2.2.2.1).2.1 = false →
      isPow2Batch st.e.batchSize = true →
      ∃ st', drainStepGo recur st cid pkt = recur st' ∧
        st'.e.batchSize = min (2 * st.e.batchSize) 1024 ∧
        st'.batch = [] ∧ st'.nBatchesSent = st.nBatchesSent + 1) ∧
    (∀ (recur : DrainSt → DrainSt) (st : DrainSt) (cid : Nat)
        (pkt : PacketOut),
      ((st.batch ++ [(cid, pkt)]).length == st.e.batchSize) = true →
      (send_batch_orc st.e st.it (st.batch ++ [(cid, pkt)]) st.orc).2.2.1
        < (send_batch_orc st.e st.it (st.batch ++ [(cid, pkt)])
            st.orc).1.batchSize →
      isPow2Batch st.e.batchSize = true →
      (drainStepGo recur st cid pkt).e.batchSize
        = max (st.e.batchSize / 2) 4) ∧
    (∀ st : DrainSt,
      0 < st.batch.length →
      (send_batch_orc st.e st.it st.batch st.orc).2.2.1 < st.batch.length →
      isPow2Batch st.e.batchSize = true →
      (drainFinish st).e.batchSize = max (st.e.batchSize / 2) 4) ∧
    (∀ st : DrainSt,
      st.nBatchesSent = 0 →
      0 < st.batch.length →
      ¬ (send_batch_orc st.e st.it st.batch st.orc).2.2.1
          < st.batch.length →
      (drainFinish st).e.batchSize = st.e.batchSize) ∧
    (∀ (fuel : Nat) (e : Engine) (ticked closed : List Nat) (o : Oracle),
      isPow2Batch e.batchSize = true →
      isPow2Batch (send_packets_out fuel e ticked closed o).1.batchSize
          = true ∧
      4 ≤ (send_packets_out fuel e ticked closed o).1.batchSize ∧
      (send_packets_out fuel e ticked closed o).1.batchSize ≤ 1024) := by
  refine ⟨?_, ?_, ?_, ?_, ?_⟩
  · -- (i) in-loop full batch, fully accepted, deadline quiet: grow and go on
    intro recur st cid pkt hfull hw hcd hp
    obtain ⟨now, ret, o2, hq⟩ :=
      send_batch_orc_spec st.e st.it (st.batch ++ [(cid, pkt)]) st.orc
    simp only [hq] at hw hcd
    unfold drainStepGo
    simp only [hfull, if_true]
    rw [hq]
    simp only [hw, if_false]
    rcases hcdq : check_deadline
        (send_batch st.e st.it (st.batch ++ [(cid, pkt)]) ret now).1 o2
      with ⟨e2, dlEx, o3⟩
    simp only [hcdq] at hcd
    have hdl : dlEx = false := hcd
    subst hdl
    simp only [hcdq, Bool.false_eq_true, if_false]
    have he2 : e2.batchSize = st.e.batchSize := by
      have h1 := check_deadline_batchSize
        (send_batch st.e st.it (st.batch ++ [(cid, pkt)]) ret now).1 o2
      rw [hcdq] at h1
      rw [h1, send_batch_batchSize]
    refine ⟨_, rfl, ?_, rfl, rfl⟩
    show (grow_batch_size e2).batchSize = min (2 * st.e.batchSize) 1024
    rw [(grow_batch_size_pow2 e2 (by rw [he2]; exact hp)).1, he2]
  · -- (ii) in-loop partial batch: the drain finishes with the halved size
    intro recur st cid pkt hfull hw hp
    obtain ⟨now, ret, o2, hq⟩ :=
      send_batch_orc_spec st.e st.it (st.batch ++ [(cid, pkt)]) st.orc
    simp only [hq] at hw
    unfold drainStepGo
    simp only [hfull, if_true]
    rw [hq]
    simp only [hw, if_true]
    rw [drainFinish_shrink_noflush _ rfl rfl]
    show (shrink_batch_size
        (send_batch st.e st.it (st.batch ++ [(cid, pkt)]) ret now).1).batchSize
      = max (st.e.batchSize / 2) 4
    rw [(shrink_batch_size_pow2 _
        (by rw [send_batch_batchSize]; exact hp)).1, send_batch_batchSize]
  · -- (iii) partial final flush: shrink applied at the end of the drain
    intro st hb hw hp
    obtain ⟨now, ret, o2, hq⟩ := send_batch_orc_spec st.e st.it st.batch st.orc
    simp only [hq] at hw
    unfold drainFinish
    simp only [hb, if_true]
    rw [hq]
    rcases hcdq : check_deadline
        (send_batch st.e st.it st.batch ret now).1 o2 with ⟨e2, dlEx, o3⟩
    simp only [hcdq]
    have hs : decide ((send_batch st.e st.it st.batch ret now).2.2.1
        < st.batch.length) = true := decide_eq_true hw
    simp only [hs, if_true]
    rw [coi_reheap_batchSize]
    have he2 : e2.batchSize = st.e.batchSize := by
      have h1 := check_deadline_batchSize
        (send_batch st.e st.it st.batch ret now).1 o2
      rw [hcdq] at h1
      rw [h1, send_batch_batchSize]
    rw [(shrink_batch_size_pow2 e2 (by rw [he2]; exact hp)).1, he2]
  · -- (iv) lone fully accepted final flush: batch size unchanged
    intro st hn hb hw
    obtain ⟨now, ret, o2, hq⟩ := send_batch_orc_spec st.e st.it st.batch st.orc
    simp only [hq] at hw
    unfold drainFinish
    simp only [hb, if_true]
    rw [hq]
    rcases hcdq : check_deadline
        (send_batch st.e st.it st.batch ret now).1 o2 with ⟨e2, dlEx, o3⟩
    simp only [hcdq]
    have hs : decide ((send_batch st.e st.it st.batch ret now).2.2.1
        < st.batch.length) = false := decide_eq_false hw
    simp only [hs, Bool.false_eq_true, if_false]
    have hg : decide (1 < st.nBatchesSent + 1) = false := by
      rw [hn]
      decide
    simp only [hg, Bool.false_and, Bool.false_eq_true, if_false]
    rw [coi_reheap_batchSize]
    have h1 := check_deadline_batchSize
      (send_batch st.e st.it st.batch ret now).1 o2
    rw [hcdq] at h1
    rw [h1, send_batch_batchSize]
  · -- (v) the drain-wide power-of-two [4, 1024] invariant
    intro fuel e ticked closed o h
    have hp := send_packets_out_batchSize fuel e ticked closed o h
    exact ⟨hp, (isPow2Batch_bounds _ hp).1, (isPow2Batch_bounds _ hp).2⟩

theorem batch_size_aimd_witness :
    ((c4wSt.batch ++ [(1, pkt0)]).length == c4wSt.e.batchSize) = true ∧
    (∃ st', drainStepGo id c4wSt 1 pkt0 = id st' ∧
       st'.e.batchSize = min (2 * c4wSt.e.batchSize) 1024 ∧
       st'.batch = [] ∧ st'.nBatchesSent = c4wSt.nBatchesSent + 1) ∧
    c4wFin.nBatchesSent = 0 ∧
    (drainFinish c4wFin).e.batchSize = c4wFin.e.batchSize ∧
    isPow2Batch (send_packets_out 1 engine0 [] [] c4xOrc).1.batchSize = true :=
  ⟨by decide,
   batch_size_aimd.1 id c4wSt 1 pkt0 (by decide) (by decide) (by decide)
     (by decide),
   rfl,
   batch_size_aimd.2.2.2.1 c4wFin rfl (by decide) (by decide),
   (batch_size_aimd.2.2.2.2 1 engine0 [] [] c4xOrc (by decide)).1⟩

theorem conn_iter_next_tickable_nil (e : Engine) (h : e.tickableQ = []) :
    conn_iter_next_tickable e = (e, none, []) := by
  unfold conn_iter_next_tickable
  rw [h]
  rfl

theorem tickLoop_nil (fuel : Nat) (e : Engine) (now i : Nat)
    (ticked closed : List Nat) (evs : List Event) (h : e.tickableQ = []) :
    tickLoop fuel e now i ticked closed evs = (e, i, ticked, closed, evs) := by
  cases fuel with
  | zero => rfl
  | succ fuel =>
    rw [tickLoop, conn_iter_next_tickable_nil e h]
    simp

theorem attqDrain_none (fuel : Nat) (e : Engine) (now : Nat) (evs : List Event)
    (h : attqPop e.attq now = none) :
    attqDrain fuel e now evs = (e, evs) := by
  cases fuel with
  | zero => rfl
  | succ fuel => rw [attqDrain, h]

theorem resume_failsafe_frame (e : Engine) (now : Nat) :
    (resume_failsafe e now).conns = e.conns ∧
    (resume_failsafe e now).connsHash = e.connsHash ∧
    (resume_failsafe e now).srstHash = e.srstHash ∧
    (resume_failsafe e now).tickableQ = e.tickableQ ∧
    (resume_failsafe e now).outQ = e.outQ ∧
    (resume_failsafe e now).attq = e.attq := by
  unfold resume_failsafe
  split <;> exact ⟨rfl, rfl, rfl, rfl, rfl, rfl⟩

/-- C9 counterexample: an engine whose tickable heap is empty and whose ATTQ
holds no entry due at now = 50 on which process_conns is not a no-op — a
connection still holds a pending outgoing packet, so the egress stage runs
and the host packets_out callback is invoked. -/
theorem process_conns_quiescent_counterexample :
    c9xEngine.tickableQ = [] ∧ attqPop c9xEngine.attq 50 = none ∧
    (lsquic_engine_process_conns 10 c9xEngine 50 c9xOrc).2.2.filterMap callProj
      = [(1, 1)] := by
  decide

/-- C9 (amended): when the tickable heap is empty, the ATTQ holds no entry
with wakeup time at or before now, and additionally the Outgoing Queue is
empty, process_conns invokes no host or connection callback and leaves the
connection registry, both hashes, both heaps and the ATTQ unchanged. -/
theorem process_connections_nil (fuel : Nat) (e : Engine) (now : Nat)
    (o : Oracle) (h1 : e.tickableQ = []) (h3 : e.outQ = []) :
    process_connections fuel e now o
      = (resume_failsafe (reset_deadline e now) now, o, []) := by
  have hfr := resume_failsafe_frame (reset_deadline e now) now
  have htq : (resume_failsafe (reset_deadline e now) now).tickableQ = [] :=
    hfr.2.2.2.1.trans h1
  have hoq : (resume_failsafe (reset_deadline e now) now).outQ = [] :=
    hfr.2.2.2.2.1.trans h3
  have hsend : lsquic_engine_has_unsent_packets
      (resume_failsafe (reset_deadline e now) now) = false := by
    unfold lsquic_engine_has_unsent_packets
    rw [hoq]
    rfl
  have hguard : ((resume_failsafe (reset_deadline e now) now).canSend
      && lsquic_engine_has_unsent_packets
           (resume_failsafe (reset_deadline e now) now)) = false := by
    rw [hsend]
    exact Bool.and_false _
  unfold process_connections
  simp only [tickLoop_nil fuel (resume_failsafe (reset_deadline e now) now)
    now 0 [] [] [] htq, hguard, Bool.false_eq_true, if_false]
  rfl

theorem process_conns_quiescent (fuel : Nat) (e : Engine) (now : Nat)
    (o : Oracle) (h1 : e.tickableQ = []) (h2 : attqPop e.attq now = none)
    (h3 : e.outQ = []) :
    (lsquic_engine_process_conns fuel e now o).2.2 = [] ∧
    (lsquic_engine_process_conns fuel e now o).1.conns = e.conns ∧
    (lsquic_engine_process_conns fuel e now o).1.connsHash = e.connsHash ∧
    (lsquic_engine_process_conns fuel e now o).1.srstHash = e.srstHash ∧
    (lsquic_engine_process_conns fuel e now o).1.tickableQ = [] ∧
    (lsquic_engine_process_conns fuel e now o).1.outQ = [] ∧
    (lsquic_engine_process_conns fuel e now o).1.attq = e.attq ∧
    (lsquic_engine_process_conns fuel e now o).2.1 = o := by
  have key : lsquic_engine_process_conns fuel e now o
      = ({ resume_failsafe (reset_deadline { e with proc := true } now) now
             with proc := false }, o, []) := by
    unfold lsquic_engine_process_conns
    simp only [attqDrain_none fuel { e with proc := true } now [] h2,
      process_connections_nil fuel { e with proc := true } now o h1 h3]
    rfl
  have hfr := resume_failsafe_frame
    (reset_deadline { e with proc := true } now) now
  rw [key]
  exact ⟨rfl, hfr.1, hfr.2.1, hfr.2.2.1, hfr.2.2.2.1.trans h1,
    hfr.2.2.2.2.1.trans h3, hfr.2.2.2.2.2, rfl⟩

theorem process_conns_quiescent_witness :
    engine0.tickableQ = [] ∧ attqPop engine0.attq 7 = none ∧
    engine0.outQ = [] ∧
    (lsquic_engine_process_conns 3 engine0 7 c9xOrc).2.2 = [] ∧
    (lsquic_engine_process_conns 3 engine0 7 c9xOrc).1.attq = engine0.attq :=
  ⟨rfl, rfl, rfl,
   (process_conns_quiescent 3 engine0 7 c9xOrc rfl rfl rfl).1,
   (process_conns_quiescent 3 engine0 7 c9xOrc rfl rfl rfl).2.2.2.2.2.2.1⟩

/-- C7 counterexample: a buffer holding an unparseable datagram followed by
a deliverable one.  packet_in returns −1 with errno = EINVAL at the parse
failure, leaving the engine unchanged and invoking no callback: the second
datagram — deliverable on its own, as the second run shows — is never
processed, so processing does not continue past the failure. -/
theorem parse_failure_aborts_counterexample :
    lsquic_engine_packet_in c6xEngine [dBad, dGood] 0 0 0
      = (c6xEngine, -1, some EINVAL, []) ∧
    (lsquic_engine_packet_in c6xEngine [dGood] 0 0 0).2.1 = 0 := by
  decide

/-- C7 (amended): a datagram whose header cannot be parsed makes packet_in
discard the datagram, set errno to EINVAL and return −1 immediately, with
the engine unchanged and no callback invoked; the remaining datagrams of
the buffer are not processed. -/
theorem parse_failure_einval (e : Engine) (k1 k2 k3 : Nat) (d : Datagram)
    (rest : List Datagram) (hA : d.alloc = true) (hP : d.parse = none) :
    (∀ nz : Nat,
      packetInLoop e k1 k2 k3 (d :: rest) nz = (e, -1, some EINVAL, [])) ∧
    (e.connsByAddr = false →
      lsquic_engine_packet_in e (d :: rest) k1 k2 k3
        = (e, -1, some EINVAL, [])) := by
  have h1 : ∀ nz : Nat,
      packetInLoop e k1 k2 k3 (d :: rest) nz = (e, -1, some EINVAL, []) := by
    intro nz
    simp only [packetInLoop, hA, hP, Bool.not_true, Bool.false_eq_true,
      if_false]
  refine ⟨h1, fun hB => ?_⟩
  unfold lsquic_engine_packet_in
  rw [hB]
  simp only [Bool.false_eq_true, if_false]
  exact h1 0

theorem parse_failure_einval_witness :
    dBad.alloc = true ∧ dBad.parse = none ∧ c6xEngine.connsByAddr = false ∧
    lsquic_engine_packet_in c6xEngine [dBad, dGood] 0 0 0
      = (c6xEngine, -1, some EINVAL, []) :=
  ⟨rfl, rfl, rfl,
   (parse_failure_einval c6xEngine 0 0 0 dBad [dGood] rfl rfl).2 rfl⟩

theorem process_packet_in_delivered (e : Engine) (pkt : PacketIn)
    (k1 k2 k3 : Nat) :
    ((process_packet_in e pkt k1 k2 k3).2.1 = 0 ∨
      (process_packet_in e pkt k1 k2 k3).2.1 = 1) ∧
    ((process_packet_in e pkt k1 k2 k3).2.2.filterMap deliveredProj).length
      = (if (process_packet_in e pkt k1 k2 k3).2.1 = 0 then 1 else 0) := by
  unfold process_packet_in
  repeat' split
  all_goals first
    | exact ⟨Or.inl rfl, rfl⟩
    | exact ⟨Or.inr rfl, rfl⟩
    | simp_all

theorem packetInLoop_classification (k1 k2 k3 : Nat) :
    ∀ (dgrams : List Datagram) (e : Engine) (nz : Nat),
      (packetInLoop e k1 k2 k3 dgrams nz).2.1 = -1 ∨
      ((packetInLoop e k1 k2 k3 dgrams nz).2.1 = 0 ∧
        0 < nz + ((packetInLoop e k1 k2 k3 dgrams nz).2.2.2.filterMap
          deliveredProj).length) ∨
      ((packetInLoop e k1 k2 k3 dgrams nz).2.1 = 1 ∧
        nz + ((packetInLoop e k1 k2 k3 dgrams nz).2.2.2.filterMap
          deliveredProj).length = 0) := by
  intro dgrams
  induction dgrams with
  | nil =>
    intro e nz
    simp only [packetInLoop]
    by_cases h : 0 < nz
    · rw [if_pos h]
      exact Or.inr (Or.inl ⟨rfl, by simpa using h⟩)
    · rw [if_neg h]
      refine Or.inr (Or.inr ⟨rfl, ?_⟩)
      simp only [List.filterMap_nil, List.length_nil]
      omega
  | cons d rest ih =>
    intro e nz
    simp only [packetInLoop]
    cases hA : d.alloc with
    | false => exact Or.inl rfl
    | true =>
      simp only [hA, Bool.not_true, Bool.false_eq_true, if_false]
      cases hP : d.parse with
      | none => exact Or.inl rfl
      | some pkt =>
        dsimp only
        rcases hq : process_packet_in e pkt k1 k2 k3 with ⟨e1, s, evs1⟩
        have hdel := process_packet_in_delivered e pkt k1 k2 k3
        rw [hq] at hdel
        simp only [hq]
        rcases hdel.1 with hs | hs
        · subst hs
          have hlen : (evs1.filterMap deliveredProj).length = 1 := by
            simpa using hdel.2
          cases rest with
          | nil =>
            simp only [List.isEmpty_nil, Bool.not_true, Bool.and_false,
              Bool.false_eq_true, if_false]
            refine Or.inr (Or.inl ⟨?_, ?_⟩)
            · simp
            · simpa [hlen] using Nat.succ_pos (nz + 0)
          | cons r rs =>
            simp only [List.isEmpty_cons, Bool.not_false, Bool.and_true]
            simp only [beq_self_eq_true, if_true]
            rcases hrec : packetInLoop e1 k1 k2 k3 (r :: rs) (nz + 1)
              with ⟨e2, ret, errno, evs2⟩
            have hih := ih e1 (nz + 1)
            rw [hrec] at hih
            simp only [hrec]
            rcases hih with hc | ⟨hc, hlt⟩ | ⟨hc, hz⟩
            · exact Or.inl hc
            · refine Or.inr (Or.inl ⟨hc, ?_⟩)
              simp only [List.filterMap_append, List.length_append, hlen]
              omega
            · refine Or.inr (Or.inr ⟨hc, ?_⟩)
              simp only [List.filterMap_append, List.length_append, hlen]
              omega
        · subst hs
          have hlen : (evs1.filterMap deliveredProj).length = 0 := by
            simpa using hdel.2
          have h10 : ((1 : Nat) == 0) = false := by decide
          simp only [h10, Bool.false_and, Bool.false_eq_true, if_false,
            Nat.add_zero]
          by_cases h : 0 < nz
          · rw [if_pos h]
            refine Or.inr (Or.inl ⟨rfl, ?_⟩)
            simpa [hlen] using h
          · rw [if_neg h]
            refine Or.inr (Or.inr ⟨rfl, ?_⟩)
            simp only [hlen]
            omega

/-- C6 counterexample: the ingress loop stops at the first datagram that is
not delivered rather than processing the buffer to exhaustion.  With a
buffer [unknown-CID datagram, deliverable datagram] the call returns 1 and
delivers nothing — the second datagram, deliverable on its own as the
second run shows, is never handed to its connection. -/
theorem packet_in_exhaustion_counterexample :
    (lsquic_engine_packet_in c6xEngine [dUnknown, dGood] 0 0 0).2.1 = 1 ∧
    (lsquic_engine_packet_in c6xEngine [dUnknown, dGood] 0 0 0).2.2.2.filterMap
      deliveredProj = [] ∧
    (lsquic_engine_packet_in c6xEngine [dGood] 0 0 0).2.1 = 0 ∧
    (lsquic_engine_packet_in c6xEngine [dGood] 0 0 0).2.2.2.filterMap
      deliveredProj = [7] := by
  decide

/-- C6 (amended): packet_in processes datagrams until the buffer is
exhausted or until a datagram is not delivered to a live connection,
whichever comes first; it returns 0, 1 or −1, it returns 0 only when at
least one datagram of the buffer was delivered, it returns 1 only when no
datagram was delivered, and whenever a datagram was delivered and no
allocation or parse failure occurred it returns 0.  The loop laws make the
early stop and the error exits explicit: an exhausted buffer ends the loop
with 0 or 1 according to whether anything was delivered; an allocation
failure returns −1 at once, no matter how many datagrams were already
delivered; an undelivered datagram ends the loop at once, without touching
the rest of the buffer; a delivered datagram continues the loop on the
rest of the buffer; a datagram whose header does not parse returns −1 with
errno EINVAL at once, no matter how many datagrams were already
delivered. -/
theorem packet_in_return_classification (e : Engine) (dgrams : List Datagram)
    (k1 k2 k3 : Nat) :
    ((lsquic_engine_packet_in e dgrams k1 k2 k3).2.1 = 0 ∨
     (lsquic_engine_packet_in e dgrams k1 k2 k3).2.1 = 1 ∨
     (lsquic_engine_packet_in e dgrams k1 k2 k3).2.1 = -1) ∧
    ((lsquic_engine_packet_in e dgrams k1 k2 k3).2.1 = 0 →
      0 < ((lsquic_engine_packet_in e dgrams k1 k2 k3).2.2.2.filterMap
        deliveredProj).length) ∧
    ((lsquic_engine_packet_in e dgrams k1 k2 k3).2.1 = 1 →
      ((lsquic_engine_packet_in e dgrams k1 k2 k3).2.2.2.filterMap
        deliveredProj).length = 0) ∧
    (0 < ((lsquic_engine_packet_in e dgrams k1 k2 k3).2.2.2.filterMap
        deliveredProj).length →
      (lsquic_engine_packet_in e dgrams k1 k2 k3).2.1 ≠ -1 →
      (lsquic_engine_packet_in e dgrams k1 k2 k3).2.1 = 0) ∧
    (∀ (e' : Engine) (nz : Nat),
      packetInLoop e' k1 k2 k3 [] nz
        = (e', if 0 < nz then 0 else 1, none, [])) ∧
    (∀ (e' : Engine) (d : Datagram) (rest : List Datagram) (nz : Nat),
      d.alloc = false →
      packetInLoop e' k1 k2 k3 (d :: rest) nz = (e', -1, none, [])) ∧
    (∀ (e' : Engine) (d : Datagram) (rest : List Datagram) (nz : Nat)
        (pkt : PacketIn) (e1 : Engine) (evs1 : List Event),
      d.alloc = true → d.parse = some pkt →
      process_packet_in e' pkt k1 k2 k3 = (e1, 1, evs1) →
      packetInLoop e' k1 k2 k3 (d :: rest) nz
        = (e1, if 0 < nz then 0 else 1, none, evs1)) ∧
    (∀ (e' : Engine) (d : Datagram) (rest : List Datagram) (nz : Nat)
        (pkt : PacketIn) (e1 : Engine) (evs1 : List Event),
      d.alloc = true → d.parse = some pkt →
      process_packet_in e' pkt k1 k2 k3 = (e1, 0, evs1) →
      rest ≠ [] →
      packetInLoop e' k1 k2 k3 (d :: rest) nz
        = ((packetInLoop e1 k1 k2 k3 rest (nz + 1)).1,
           (packetInLoop e1 k1 k2 k3 rest (nz + 1)).2.1,
           (packetInLoop e1 k1 k2 k3 rest (nz + 1)).2.2.1,
           evs1 ++ (packetInLoop e1 k1 k2 k3 rest (nz + 1)).2.2.2)) ∧
    (∀ (e' : Engine) (d : Datagram) (rest : List Datagram) (nz : Nat),
      d.alloc = true → d.parse = none →
      packetInLoop e' k1 k2 k3 (d :: rest) nz
        = (e', -1, some EINVAL, [])) := by
  have main : ∀ r : Engine × Int × Option Nat × List Event,
      (r.2.1 = -1 ∨
        (r.2.1 = 0 ∧ 0 < 0 + (r.2.2.2.filterMap deliveredProj).length) ∨
        (r.2.1 = 1 ∧ 0 + (r.2.2.2.filterMap deliveredProj).length = 0)) →
      (r.2.1 = 0 ∨ r.2.1 = 1 ∨ r.2.1 = -1) ∧
      (r.2.1 = 0 → 0 < (r.2.2.2.filterMap deliveredProj).length) ∧
      (r.2.1 = 1 → (r.2.2.2.filterMap deliveredProj).length = 0) ∧
      (0 < (r.2.2.2.filterMap deliveredProj).length → r.2.1 ≠ -1 →
        r.2.1 = 0) := by
    intro r hT
    rcases hT with hc | ⟨hc, hl⟩ | ⟨hc, hl⟩
    · exact ⟨Or.inr (Or.inr hc), fun h0 => absurd (h0 ▸ hc) (by decide),
        fun h1 => absurd (h1 ▸ hc) (by decide), fun _ hne => absurd hc hne⟩
    · exact ⟨Or.inl hc, fun _ => by omega, fun h1 => absurd (h1 ▸ hc) (by decide),
        fun _ _ => hc⟩
    · exact ⟨Or.inr (Or.inl hc), fun h0 => absurd (h0 ▸ hc) (by decide),
        fun _ => by omega, fun hd _ => by omega⟩
  have base :
      ((lsquic_engine_packet_in e dgrams k1 k2 k3).2.1 = 0 ∨
       (lsquic_engine_packet_in e dgrams k1 k2 k3).2.1 = 1 ∨
       (lsquic_engine_packet_in e dgrams k1 k2 k3).2.1 = -1) ∧
      ((lsquic_engine_packet_in e dgrams k1 k2 k3).2.1 = 0 →
        0 < ((lsquic_engine_packet_in e dgrams k1 k2 k3).2.2.2.filterMap
          deliveredProj).length) ∧
      ((lsquic_engine_packet_in e dgrams k1 k2 k3).2.1 = 1 →
        ((lsquic_engine_packet_in e dgrams k1 k2 k3).2.2.2.filterMap
          deliveredProj).length = 0) ∧
      (0 < ((lsquic_engine_packet_in e dgrams k1 k2 k3).2.2.2.filterMap
          deliveredProj).length →
        (lsquic_engine_packet_in e dgrams k1 k2 k3).2.1 ≠ -1 →
        (lsquic_engine_packet_in e dgrams k1 k2 k3).2.1 = 0) := by
    unfold lsquic_engine_packet_in
    by_cases hB : e.connsByAddr
    · rw [if_pos hB]
      cases hf : hashFind e.connsHash k1 with
      | none =>
        refine main (e, -1, none, []) ?_
        exact Or.inl rfl
      | some cid =>
        exact main _ (packetInLoop_classification k1 k2 k3 dgrams e 0)
    · rw [if_neg hB]
      exact main _ (packetInLoop_classification k1 k2 k3 dgrams e 0)
  refine ⟨base.1, base.2.1, base.2.2.1, base.2.2.2, ?_, ?_, ?_, ?_, ?_⟩
  · intro e' nz
    rfl
  · intro e' d rest nz hA
    simp only [packetInLoop, hA, Bool.not_false, if_true]
  · intro e' d rest nz pkt e1 evs1 hA hP hq
    simp only [packetInLoop, hA, Bool.not_true, Bool.false_eq_true, if_false,
      hP, hq]
    have h10 : ((1 : Nat) == 0) = false := by decide
    simp only [h10, Bool.false_and, Bool.false_eq_true, if_false, Nat.add_zero]
    rfl
  · intro e' d rest nz pkt e1 evs1 hA hP hq hrest
    have hne : rest.isEmpty = false := by
      cases rest with
      | nil => exact absurd rfl hrest
      | cons a l => rfl
    have h00 : ((0 : Nat) == 0) = true := by decide
    simp only [packetInLoop, hA, Bool.not_true, Bool.false_eq_true, if_false,
      hP, hq, h00, hne, Bool.not_false, Bool.true_and, if_true]
  · intro e' d rest nz hA hP
    simp only [packetInLoop, hA, Bool.not_true, Bool.false_eq_true, if_false,
      hP]

theorem packet_in_return_classification_witness :
    (lsquic_engine_packet_in c6xEngine [dGood] 0 0 0).2.1 = 0 ∧
    0 < ((lsquic_engine_packet_in c6xEngine [dGood] 0 0 0).2.2.2.filterMap
        deliveredProj).length ∧
    dNoAlloc.alloc = false ∧
    packetInLoop c6xEngine 0 0 0 [dNoAlloc, dGood] 3
      = (c6xEngine, -1, none, []) ∧
    process_packet_in c6xEngine
        { pid := 2, isGquicPrst := false, isGquic := false, cid := some 99,
          srstShaped := false, srstToken := 0 } 0 0 0
      = (c6xEngine, 1, []) ∧
    packetInLoop c6xEngine 0 0 0 [dUnknown, dGood] 0
      = (c6xEngine, if 0 < (0 : Nat) then 0 else 1, none, []) :=
  ⟨by decide,
   (packet_in_return_classification c6xEngine [dGood] 0 0 0).2.1 (by decide),
   rfl,
   (packet_in_return_classification c6xEngine [dGood] 0 0 0).2.2.2.2.2.1
     c6xEngine dNoAlloc [dGood] 3 rfl,
   by decide,
   (packet_in_return_classification c6xEngine [dGood] 0 0 0).2.2.2.2.2.2.1
     c6xEngine dUnknown [dGood] 0
     { pid := 2, isGquicPrst := false, isGquic := false, cid := some 99,
       srstShaped := false, srstToken := 0 } c6xEngine [] rfl rfl (by decide)⟩

end LsquicEngine
